import Mathlib

set_option maxRecDepth 4000

/-!
Verification development for the `intel-ark-crawler` repository
(`intelark/spiders/cpuspecs.py`).  The Python source is shallowly embedded:
strings are `String`/`List Char`, Python dicts are association lists with
unique keys, generators that may raise are functions returning the list of
items yielded before the (optional) exception, and exceptions are an explicit
error type.  The converter functions of `intelark/converters.py` are not part
of the embedded file's source; they are modelled abstractly as a parameter
(an association table from key to a fallible conversion function), which is
all the embedded code observes of them.
-/

/-- Whitespace recognised by CPython `str.split()` / `str.strip()`
(ASCII subset; the crawled labels contain no exotic Unicode whitespace). -/
def isPySpace (c : Char) : Bool :=
  c = ' ' || c = '\t' || c = '\n' || c = '\r' || c = '\x0b' || c = '\x0c'

/-- Drop characters satisfying `p` from both ends (Python `str.strip`). -/
def stripP (p : Char → Bool) (l : List Char) : List Char :=
  ((l.dropWhile p).reverse.dropWhile p).reverse

/-- Python `str.strip()` (no argument) on a character list. -/
def pyStripL : List Char → List Char := stripP isPySpace

/-- Python `str.strip()` on a string. -/
def pyStripS (s : String) : String := String.mk (pyStripL s.data)

/-- Worker for `removeAll`: Python `str.replace(pat, "")`, scanning left to
right over the original string and deleting non-overlapping occurrences.
`skip` counts remaining characters of a matched occurrence still to delete. -/
def removeAllAux (pat : List Char) : List Char → Nat → List Char
  | [], _ => []
  | _ :: rest, Nat.succ n => removeAllAux pat rest n
  | c :: rest, 0 =>
    if pat != [] && pat.isPrefixOf (c :: rest) then
      removeAllAux pat rest (pat.length - 1)
    else
      c :: removeAllAux pat rest 0

/-- Python `str.replace(pat, "")` (for the nonempty patterns `cleantxt` uses). -/
def removeAll (pat l : List Char) : List Char := removeAllAux pat l 0

/-- Python `str.split()`-style word list: maximal runs of non-whitespace,
empty runs discarded.  `cur` accumulates the current word reversed. -/
def pyWordsAux (cur : List Char) : List Char → List (List Char)
  | [] => if cur.isEmpty then [] else [cur.reverse]
  | c :: t =>
    if isPySpace c then
      if cur.isEmpty then pyWordsAux [] t
      else cur.reverse :: pyWordsAux [] t
    else pyWordsAux (c :: cur) t

/-- Python `str.split()` (no argument). -/
def pyWords (l : List Char) : List (List Char) := pyWordsAux [] l

/-- Python `' '.join(ws)`. -/
def joinWords : List (List Char) → List Char
  | [] => []
  | [w] => w
  | w :: ws => w ++ ' ' :: joinWords ws

/-- `' '.join(l.split())` followed by `.strip()`: the whitespace-normalising
tail of `cleantxt`. -/
def wsNorm (l : List Char) : List Char := stripP isPySpace (joinWords (pyWords l))

/-- Substring test: Python `pat in s` / `s.find(pat) != -1`. -/
def hasSub (pat : List Char) : List Char → Bool
  | [] => pat.isEmpty
  | c :: t => pat.isPrefixOf (c :: t) || hasSub pat t

/-- Substring test on strings. -/
def hasSubS (pat s : String) : Bool := hasSub pat.data s.data

/-- Worker for `pySplitSeq`: Python `str.split(sep)` with an explicit
(nonempty) separator, keeping empty pieces.  `skip` counts remaining
characters of a matched separator still to consume. -/
def splitSeqAux (sep : List Char) : List Char → Nat → List (List Char)
  | [], _ => [[]]
  | _ :: rest, Nat.succ n => splitSeqAux sep rest n
  | c :: rest, 0 =>
    if sep != [] && sep.isPrefixOf (c :: rest) then
      [] :: splitSeqAux sep rest (sep.length - 1)
    else
      match splitSeqAux sep rest 0 with
      | [] => [[c]]
      | w :: ws => (c :: w) :: ws

/-- Python `str.split(sep)` for an explicit separator. -/
def pySplitSeq (sep l : List Char) : List (List Char) := splitSeqAux sep l 0

/-- Python `str.split(sep)` on strings. -/
def pySplitS (sep s : String) : List String := (pySplitSeq sep.data s.data).map String.mk

/-- Decimal value of a digit list. -/
def digitsToNat (l : List Char) : Nat :=
  l.foldl (fun acc c => acc * 10 + (c.toNat - '0'.toNat)) 0

/-- A nonempty, all-decimal-digit character list. -/
def decDigits (l : List Char) : Bool := !l.isEmpty && l.all Char.isDigit

/-- CPython `int(str)` on ASCII decimal input: strip whitespace, optional
sign, then decimal digits.  (CPython additionally accepts underscore digit
grouping and non-ASCII decimal digits; those never occur in the crawled URL
path segments and are not modelled.)  `none` models `ValueError`. -/
def pyInt (l : List Char) : Option Int :=
  match pyStripL l with
  | '-' :: t => if decDigits t then some (-(digitsToNat t : Int)) else none
  | '+' :: t => if decDigits t then some ((digitsToNat t : Int)) else none
  | t => if decDigits t then some ((digitsToNat t : Int)) else none

/-- `int()` on a string. -/
def pyIntS (s : String) : Option Int := pyInt s.data

/-- The pattern removed first by `cleantxt` (`v.replace("Intel", "")`). -/
def intelPat : List Char := ['I', 'n', 't', 'e', 'l']

/-- `BaseSpider.cleantxt` on a character list: remove the brand name, the
U+2122 (tm), U+00AE (registered) and U+2021 (double dagger) glyphs, then
`' '.join(v.split())` and `.strip()`. -/
def cleantxtL (l : List Char) : List Char :=
  wsNorm (removeAll ['‡'] (removeAll ['®'] (removeAll ['™'] (removeAll intelPat l))))

/-- `BaseSpider.cleantxt`. -/
def cleantxt (s : String) : String := String.mk (cleantxtL s.data)

/-- First-match association-list lookup: Python `d[k]` when it succeeds
(keys are unique in every dict this embedding builds, matching Python). -/
def dGet {κ α : Type} [DecidableEq κ] : List (κ × α) → κ → Option α
  | [], _ => none
  | (k', v) :: t, k => if k' = k then some v else dGet t k

/-- Python `d[k] = v`: replace the binding in place, else append. -/
def dSet {κ α : Type} [DecidableEq κ] : List (κ × α) → κ → α → List (κ × α)
  | [], k, v => [(k, v)]
  | (k', v') :: t, k, v => if k' = k then (k, v) :: t else (k', v') :: dSet t k v

/-- Python `del d[k]` (keys being unique, removing all matches is the same). -/
def dDel {κ α : Type} [DecidableEq κ] (d : List (κ × α)) (k : κ) : List (κ × α) :=
  d.filter (fun p => decide (p.1 ≠ k))

/-- A value stored in a specification section.  `other` stands for the
opaque results of the converters in `intelark/converters.py` (floats, lists,
structured dimensions), which are not under `src/` and whose internal shape
the spider never inspects. -/
inductive Scalar where
  | str (v : String)
  | int (v : Int)
  | bool (v : Bool)
  | none
  | other (tag : String)
deriving DecidableEq

/-- One section of the specs dict: key to value. -/
abbrev SectionDict := List (String × Scalar)

/-- A value of the top-level `specs` dict: a scalar (URL, name, arkid,
hoisted id, socket) or a section sub-dict. -/
inductive TopVal where
  | sc (v : Scalar)
  | vd (d : SectionDict)
deriving DecidableEq

/-- Top-level dict keys: section headers come from `h3/text()` `.get()`,
which may be Python `None`; the fixed keys are `some "URL"` etc. -/
abbrev TopKey := Option String

abbrev TopDict := List (TopKey × TopVal)

/-- The `legends` dict: header to (raw key to cleaned label). -/
abbrev LegendDict := List (TopKey × List (String × String))

/-- Python exceptions raised by the embedded code.  `closeSpider` is the
run-aborting `scrapy.exceptions.CloseSpider`; the others abort only the
current callback. -/
inductive Err where
  | valueError (msg : String)
  | keyError (key : String)
  | typeError
  | indexError
  | attributeError
  | closeSpider (msg : String)
deriving DecidableEq

/-- Modelled from the spec: `intelark/items.py` is not under `src/`; the
spec's Record Model (§3, §6) has three record kinds distinguishable by tag,
each a snapshot of the mapping it is constructed from, so `CPULegendItem`,
`CPUSpecsItem` and `CPUSpecsUnknownItem` are modelled as tagged wrappers. -/
inductive Item where
  | legend (lg : LegendDict)
  | cpuSpecs (d : TopDict)
  | cpuSpecsUnknown (d : TopDict)
deriving DecidableEq

/-- One `tech-section-row`: text of the `tech-label` span and of the
`tech-data` span (`none` models a missing node, where `.get()` gives
Python `None`). -/
structure Row where
  keyTxt : Option String
  valTxt : Option String
deriving DecidableEq

/-- One section block under `processors-specifications`. -/
structure Sec where
  linkTxt : Option String
  headerTxt : Option String
  rows : List Row
deriving DecidableEq

/-- A parsed product page as `parse_specs` observes it.  `path` is
`urlsplit(url).path` (the stdlib splits the URL; the embedding takes the
path component as given). -/
structure Page where
  url : String
  path : String
  crumb : Option String
  sections : List Sec
deriving DecidableEq

/-- An abstract converter: `none`-free total function returning either the
converted scalar or a `ValueError` message (the only exception the source
catches). -/
abbrev Conv := String → Except String Scalar

/-- The `convertTo` dispatch table, as data: key to converter. -/
abbrev ConvTable := List (String × Conv)

/-- The keys of the source's `convertTo` table (the converter bodies live in
`intelark/converters.py`, outside `src/`; theorems quantify over the table). -/
def convertToKeys : List String :=
  ["NumPCIExpressPorts", "MaxCPUs", "NumMemoryChannels", "CoreCount",
   "ThreadCount", "NumUSBPorts", "NumSATAPorts", "SATA6PortCount",
   "ClockSpeed", "GraphicsFreq", "GraphicsMaxFreq", "ClockSpeedMax",
   "TurboBoostMaxTechMaxFreq", "GraphicsMaxMem", "NumDisplaysSupported",
   "MaxMem", "EmbeddedDramMB", "MaxMemoryBandwidth",
   "UltraPathInterconnectLinks", "AVX512FusedMultiplyAddUnits",
   "InstructionSetExtensions", "DiscreteGraphicsComputeUnitCount",
   "DiscreteNumDisplaysSupported", "MemoryMaxSpeedMhz", "PackageSize",
   "MaxTDP", "BusNumPorts"]

/-- `skipIfValue` from the source. -/
def skipIfValue : List String := ["View now", "Additional Information URL", "Datasheet"]

/-- `skipIfKey` from the source. -/
def skipIfKey : List String :=
  ["Product Brief", "Additional Information URL", "Datasheet",
   "Product Collection", "Code Name"]

/-- The value-typing chain of `parse_specs` (lines 151-165) applied to a
cleaned value `v` under raw key `k`: `Yes`/`No`/empty first, then the
converter table, else the string itself.  A converter's `ValueError` is
re-raised as `ValueError(f"FAILED: {k}: {v}")`. -/
def rowValue (ctab : ConvTable) (k v : String) : Except Err Scalar :=
  if v = "Yes" then .ok (.bool true)
  else if v = "No" then .ok (.bool false)
  else if v = "" then .ok .none
  else
    match dGet ctab k with
    | some f =>
      match f v with
      | .ok x => .ok x
      | .error _ => .error (.valueError ("FAILED: " ++ k ++ ": " ++ v))
    | Option.none => .ok (.str v)

/-- Key shown in a `KeyError` for a top-level key. -/
def showKey : TopKey → String
  | some s => s
  | Option.none => "None"

/-- `legends[header][k] = v`: `KeyError` if `header` is not in `legends`. -/
def lgSetIn (lg : LegendDict) (h : TopKey) (k v : String) : Except Err LegendDict :=
  match dGet lg h with
  | Option.none => .error (.keyError (showKey h))
  | some inner => .ok (dSet lg h (dSet inner k v))

/-- `specs[header][k] = v`: `KeyError` if `header` is missing, `TypeError`
if `specs[header]` is not a dict. -/
def topSetIn (sp : TopDict) (h : TopKey) (k : String) (v : Scalar) : Except Err TopDict :=
  match dGet sp h with
  | Option.none => .error (.keyError (showKey h))
  | some (.vd d) => .ok (dSet sp h (.vd (dSet d k v)))
  | some (.sc _) => .error .typeError

/-- One `tech-section-row` iteration of `parse_specs` (lines 131-167). -/
def procRow (ctab : ConvTable) (h : TopKey) (st : TopDict × LegendDict) (r : Row) :
    Except Err (TopDict × LegendDict) :=
  match r.keyTxt with
  | Option.none => .error .attributeError
  | some kt =>
    let k := pyStripS kt
    if skipIfKey.contains k then .ok st
    else
      match lgSetIn st.2 h k (cleantxt k) with
      | .error e => .error e
      | .ok lg' =>
        match r.valTxt with
        | Option.none => .error .typeError
        | some vt =>
          let v := cleantxt (pyStripS vt)
          if skipIfValue.contains v then .ok (st.1, lg')
          else
            match rowValue ctab k v with
            | .error e => .error e
            | .ok sv =>
              match topSetIn st.1 h k sv with
              | .error e => .error e
              | .ok sp' => .ok (sp', lg')

/-- Fold `procRow` over the rows of one section. -/
def procRows (ctab : ConvTable) (h : TopKey) :
    TopDict × LegendDict → List Row → Except Err (TopDict × LegendDict)
  | st, [] => .ok st
  | st, r :: rs =>
    match procRow ctab h st r with
    | .error e => .error e
    | .ok st' => procRows ctab h st' rs

/-- One section iteration of `parse_specs` (lines 122-131): skip the
`Download Specifications` block, create the section and legend groups when
the header is new, then process the rows. -/
def procSec (ctab : ConvTable) (st : TopDict × LegendDict) (s : Sec) :
    Except Err (TopDict × LegendDict) :=
  if s.linkTxt = some "Download Specifications" then .ok st
  else
    let st' :=
      if (dGet st.1 s.headerTxt).isSome then st
      else (dSet st.1 s.headerTxt (.vd []), dSet st.2 s.headerTxt [])
    procRows ctab s.headerTxt st' s.rows

/-- Fold `procSec` over all section blocks. -/
def procSecs (ctab : ConvTable) :
    TopDict × LegendDict → List Sec → Except Err (TopDict × LegendDict)
  | st, [] => .ok st
  | st, s :: ss =>
    match procSec ctab st s with
    | .error e => .error e
    | .ok st' => procSecs ctab st' ss

/-- Python `key in x` for a value of the top-level specs dict: membership
test on a dict, substring test on a str, `TypeError` otherwise. -/
def pyMemTop (x : TopVal) (k : String) : Except Err Bool :=
  match x with
  | .vd d => .ok (dGet d k).isSome
  | .sc (.str s) => .ok (hasSubS k s)
  | .sc _ => .error .typeError

/-- Python `specs[h][k]` as an expression. -/
def getItem2 (sp : TopDict) (h : TopKey) (k : String) : Except Err Scalar :=
  match dGet sp h with
  | Option.none => .error (.keyError (showKey h))
  | some (.sc _) => .error .typeError
  | some (.vd d) =>
    match dGet d k with
    | some v => .ok v
    | Option.none => .error (.keyError k)

/-- Python `del specs[h][k]`. -/
def delItem2 (sp : TopDict) (h : TopKey) (k : String) : Except Err TopDict :=
  match dGet sp h with
  | Option.none => .error (.keyError (showKey h))
  | some (.sc _) => .error .typeError
  | some (.vd d) =>
    if (dGet d k).isSome then .ok (dSet sp h (.vd (dDel d k)))
    else .error (.keyError k)

/-- Lines 169-196 of `parse_specs`: yield the legend item, then test
`"Sockets Supported" in specs["Package Specifications"]` and
`"Processor Number" in specs["Essentials"]`, hoist the id, and either yield
the unknown-socket item or one item per supported socket.  The result is the
list of items yielded before the optional exception. -/
def emitItems (sp : TopDict) (lg : LegendDict) : List Item × Option Err :=
  let items0 := [Item.legend lg]
  match dGet sp (some "Package Specifications") with
  | Option.none => (items0, some (.keyError "Package Specifications"))
  | some pkgv =>
    match pyMemTop pkgv "Sockets Supported" with
    | .error e => (items0, some e)
    | .ok hasSocket =>
      match dGet sp (some "Essentials") with
      | Option.none => (items0, some (.keyError "Essentials"))
      | some essv =>
        match pyMemTop essv "Processor Number" with
        | .error e => (items0, some e)
        | .ok hasId =>
          let hoisted : Except Err TopDict :=
            if hasId then
              match getItem2 sp (some "Essentials") "Processor Number" with
              | .error e => .error e
              | .ok pv =>
                delItem2 (dSet sp (some "id") (.sc pv)) (some "Essentials") "Processor Number"
            else .ok sp
          match hoisted with
          | .error e => (items0, some e)
          | .ok sp1 =>
            if !hasSocket then (items0 ++ [Item.cpuSpecsUnknown sp1], Option.none)
            else
              match getItem2 sp1 (some "Package Specifications") "Sockets Supported" with
              | .error e => (items0, some e)
              | .ok sockv =>
                match sockv with
                | .str s =>
                  match delItem2 sp1 (some "Package Specifications") "Sockets Supported" with
                  | .error e => (items0, some e)
                  | .ok sp2 =>
                    (items0 ++ (pySplitS ", " s).map
                        (fun sock => Item.cpuSpecs (dSet sp2 (some "socket") (.sc (.str sock)))),
                     Option.none)
                | _ => (items0, some .attributeError)

/-- Lines 105-109 of `parse_specs`: the ark id from path segment 6 of
`urlsplit(url).path.strip('/').split('/')`, then the cleaned breadcrumb
name.  `IndexError` if the segment is absent, `ValueError` if non-numeric,
`AttributeError` if the current-page span is missing. -/
def parse_prelude (page : Page) : Except Err (Int × String) :=
  match (pySplitSeq ['/'] (stripP (fun c => c = '/') page.path.data)).get? 6 with
  | Option.none => .error .indexError
  | some seg =>
    match pyInt seg with
    | Option.none => .error (.valueError ("invalid literal for int: " ++ String.mk seg))
    | some n =>
      match page.crumb with
      | Option.none => .error .attributeError
      | some c => .ok (n, cleantxt c)

/-- The initial `specs` dict (lines 111-115). -/
def initSpecs (page : Page) (n : Int) (nm : String) : TopDict :=
  [(some "URL", .sc (.str page.url)), (some "name", .sc (.str nm)),
   (some "arkid", .sc (.int n))]

/-- `BaseSpider.parse_specs`: items yielded (in order) and the exception, if
any, that ended the generator. -/
def parse_specs (ctab : ConvTable) (page : Page) : List Item × Option Err :=
  match parse_prelude page with
  | .error e => ([], some e)
  | .ok (n, nm) =>
    match procSecs ctab (initSpecs page n nm, ([] : LegendDict)) page.sections with
    | .error e => ([], some e)
    | .ok (sp, lg) => emitItems sp lg

/-- A parsed series listing page: the `hidden-crumb-xs` anchor text and the
`tr/td/div/a/@href` link targets. -/
structure SeriesPage where
  crumb : Option String
  links : List String
deriving DecidableEq

/-- `BaseSpider.parse_series`: the product-page requests yielded (as the
raw hrefs; `response.urljoin` is the framework's) and the exception, if any.
A missing crumb node makes `.get().strip()` raise `AttributeError`; a crumb
other than `Processors` raises `CloseSpider` before any link is examined;
links without the `/products/` marker are logged and skipped. -/
def parse_series (p : SeriesPage) : List String × Option Err :=
  match p.crumb with
  | Option.none => ([], some .attributeError)
  | some c =>
    if pyStripS c = "Processors" then
      (p.links.filter (fun l => hasSubS "/products/" l), Option.none)
    else ([], some (.closeSpider "Processors not found in crumb"))

/-- `CpuSpecSpider.__init__`: seed validation, returning `start_urls`. -/
def cpuSpecSpiderInit (url : String) : Except Err (List String) :=
  if url = "" then .error (.valueError "Invalid url given")
  else if hasSubS "/products/" url then .ok [url]
  else .error (.valueError ("/products/ not found from url " ++ url))

/-- `SeriesSpider.__init__`: seed validation, returning `start_urls`. -/
def seriesSpiderInit (url : String) : Except Err (List String) :=
  if url = "" then .error (.valueError "Invalid url given")
  else if !hasSubS "/products/" url then
    .error (.valueError ("/products/ not found from url " ++ url))
  else if !hasSubS "/series/" url then
    .error (.valueError ("/series/ not found from url " ++ url))
  else .ok [url]

/-- No section of the top-level dict stores key `k`. -/
def topFree (sp : TopDict) (k : String) : Prop :=
  ∀ h d, dGet sp h = some (.vd d) → dGet d k = Option.none

/-- No legend group records key `k`. -/
def lgFree (lg : LegendDict) (k : String) : Prop :=
  ∀ h inner, dGet lg h = some inner → dGet inner k = Option.none

/-- Key `k` appears in no section and no legend group of an emitted item. -/
def itemFree (k : String) : Item → Prop
  | .legend lg => lgFree lg k
  | .cpuSpecs d => topFree d k
  | .cpuSpecsUnknown d => topFree d k

/-- The section named `h₀` (if stored) does not store key `k`. -/
def topFreeAt (h₀ : TopKey) (k : String) (sp : TopDict) : Prop :=
  ∀ d, dGet sp h₀ = some (.vd d) → dGet d k = Option.none

/-- In an emitted item, the section named `h₀` stores no value for `k`
(trivially true of the legend item, which stores labels, not values). -/
def recSectFree (h₀ : TopKey) (k : String) : Item → Prop
  | .legend _ => True
  | .cpuSpecs d => topFreeAt h₀ k d
  | .cpuSpecsUnknown d => topFreeAt h₀ k d

/-- The legend group of header `h₀` records key `k` with its cleaned label. -/
def legAt (lg : LegendDict) (h₀ : TopKey) (k : String) : Prop :=
  ∃ inner, dGet lg h₀ = some inner ∧ dGet inner k = some (cleantxt k)

/-- Every legend header is also a key of the specs dict (held throughout
`parse_specs`, since both groups are created together). -/
def lgKeysSub (st : TopDict × LegendDict) : Prop :=
  ∀ h, (dGet st.2 h).isSome = true → (dGet st.1 h).isSome = true

/-- A sample converter in the style of the `int` entries of `convertTo`. -/
def exConv : Conv := fun v =>
  match pyIntS v with
  | some n => .ok (.int n)
  | Option.none => .error "invalid literal for int"

/-- A sample converter table. -/
def exCtab : ConvTable := [("CoreCount", exConv)]

/-- A sample well-formed row. -/
def exRowOk : Row := { keyTxt := some "CoreCount", valTxt := some "8" }

/-- A sample row whose value the `CoreCount` converter rejects. -/
def exRowBad : Row := { keyTxt := some "CoreCount", valTxt := some "abc" }

/-- A sample page whose only data row fails conversion. -/
def exPageConvFail : Page :=
  { url := "u", path := "/a/b/c/d/e/f/7/g", crumb := some "N"
    sections := [{ linkTxt := Option.none, headerTxt := some "Perf"
                   rows := [exRowBad] }] }

/-- A sample page in the shape of a real product page, with two supported
sockets and a processor number. -/
def exPageSock : Page :=
  { url := "https://ark.intel.com/content/www/us/en/ark/products/97185/x.html"
    path := "/content/www/us/en/ark/products/97185/x.html"
    crumb := some "Intel® Core™ i7-7700K Processor"
    sections :=
      [ { linkTxt := Option.none, headerTxt := some "Essentials"
          rows := [{ keyTxt := some "Processor Number", valTxt := some "i7-7700K" }] }
      , { linkTxt := Option.none, headerTxt := some "Package Specifications"
          rows := [{ keyTxt := some "Sockets Supported",
                     valTxt := some "FCLGA1700, FCBGA1744" }] } ] }

/-- A sample page with both required sections but no `Sockets Supported`
key and no `Processor Number` key; its ark-id path segment is `-5`. -/
def exPageNeg : Page :=
  { url := "u", path := "/a/b/c/d/e/f/-5/g", crumb := some "N"
    sections :=
      [ { linkTxt := Option.none, headerTxt := some "Package Specifications", rows := [] }
      , { linkTxt := Option.none, headerTxt := some "Essentials", rows := [] } ] }

/-- A sample page with a URL path that has no seventh segment. -/
def exPageIdx : Page :=
  { url := "u", path := "/a/b", crumb := some "N", sections := [] }

/-- A sample page whose ark-id path segment is not numeric. -/
def exPageBadId : Page :=
  { url := "u", path := "/a/b/c/d/e/f/x7/g", crumb := some "N", sections := [] }

/-- A sample page with no `Package Specifications` section. -/
def exPageNoPkg : Page :=
  { url := "u", path := "/a/b/c/d/e/f/7/g", crumb := some "N"
    sections := [{ linkTxt := Option.none, headerTxt := some "Specs"
                   rows := [ { keyTxt := some "Code Name", valTxt := some "Kaby" }
                           , { keyTxt := some "Highlights", valTxt := some "View now" }
                           , { keyTxt := some "ECC", valTxt := some "Yes" } ] }] }

/-- A sample page with a `Package Specifications` section but no
`Essentials` section. -/
def exPageNoEss : Page :=
  { url := "u", path := "/a/b/c/d/e/f/7/g", crumb := some "N"
    sections := [{ linkTxt := Option.none,
                   headerTxt := some "Package Specifications", rows := [] }] }

/-- A sample series page whose breadcrumb is not `Processors`. -/
def exSeriesBad : SeriesPage :=
  { crumb := some " Specifications ", links := ["a/products/1", "b/x"] }

/-- The specs dict `parse_specs` builds from `exPageSock`'s sections. -/
def exSpecsSock : TopDict :=
  [(some "URL",
    .sc (.str "https://ark.intel.com/content/www/us/en/ark/products/97185/x.html")),
   (some "name", .sc (.str "Core i7-7700K Processor")),
   (some "arkid", .sc (.int 97185)),
   (some "Essentials", .vd [("Processor Number", .str "i7-7700K")]),
   (some "Package Specifications",
    .vd [("Sockets Supported", .str "FCLGA1700, FCBGA1744")])]

/-- The legend dict `parse_specs` builds from `exPageSock`'s sections. -/
def exLegendSock : LegendDict :=
  [(some "Essentials", [("Processor Number", "Processor Number")]),
   (some "Package Specifications", [("Sockets Supported", "Sockets Supported")])]

/-- The first product record emitted for `exPageSock`. -/
def exRecSock1 : TopDict :=
  [(some "URL",
    .sc (.str "https://ark.intel.com/content/www/us/en/ark/products/97185/x.html")),
   (some "name", .sc (.str "Core i7-7700K Processor")),
   (some "arkid", .sc (.int 97185)),
   (some "Essentials", .vd []),
   (some "Package Specifications", .vd []),
   (some "id", .sc (.str "i7-7700K")),
   (some "socket", .sc (.str "FCLGA1700"))]

/-- Relation between the built specs dict and the dict after the id-hoist
step (lines 182-185): either unchanged, or `id` set and
`Processor Number` deleted from `Essentials`. -/
def hoistRel (sp sp1 : TopDict) : Prop :=
  sp1 = sp ∨
  ∃ pv d₀, dGet (dSet sp (some "id") (.sc pv)) (some "Essentials") = some (.vd d₀) ∧
    sp1 = dSet (dSet sp (some "id") (.sc pv)) (some "Essentials")
      (.vd (dDel d₀ "Processor Number"))

/-- A sample page holding a single row whose value is the placeholder
`View now`. -/
def exPageVS : Page :=
  { url := "u", path := "/a/b/c/d/e/f/7/g", crumb := some "N"
    sections := [{ linkTxt := Option.none, headerTxt := some "Specs"
                   rows := [{ keyTxt := some "Highlights",
                              valTxt := some "View now" }] }] }

/-- The unknown-socket record emitted for `exPageNeg`. -/
def exRecNeg : TopDict :=
  [(some "URL", .sc (.str "u")), (some "name", .sc (.str "N")),
   (some "arkid", .sc (.int (-5))), (some "Package Specifications", .vd []),
   (some "Essentials", .vd [])]

theorem dGet_dSet_self {κ α : Type} [DecidableEq κ] (d : List (κ × α)) (k : κ) (v : α) :
    dGet (dSet d k v) k = some v := by
  induction d with
  | nil => simp [dSet, dGet]
  | cons p t ih =>
    obtain ⟨k', v'⟩ := p
    by_cases h : k' = k
    · subst h; simp [dSet, dGet]
    · simp [dSet, dGet, h, ih]

theorem dGet_dSet_ne {κ α : Type} [DecidableEq κ] (d : List (κ × α)) {k₁ k₂ : κ} (v : α)
    (hne : k₁ ≠ k₂) : dGet (dSet d k₁ v) k₂ = dGet d k₂ := by
  induction d with
  | nil => simp [dSet, dGet, hne]
  | cons p t ih =>
    obtain ⟨k', v'⟩ := p
    by_cases h : k' = k₁
    · subst h; simp [dSet, dGet, hne]
    · simp only [dSet, if_neg h]
      by_cases h2 : k' = k₂ <;> simp [dGet, h2, ih]

theorem dGet_dDel_self {κ α : Type} [DecidableEq κ] (d : List (κ × α)) (k : κ) :
    dGet (dDel d k) k = Option.none := by
  induction d with
  | nil => simp [dDel, dGet]
  | cons p t ih =>
    obtain ⟨k', v'⟩ := p
    by_cases h : k' = k
    · subst h; simpa [dDel, List.filter] using ih
    · simpa [dDel, List.filter, h, dGet] using ih

theorem dGet_dDel_ne {κ α : Type} [DecidableEq κ] (d : List (κ × α)) {k₁ k₂ : κ}
    (hne : k₁ ≠ k₂) : dGet (dDel d k₁) k₂ = dGet d k₂ := by
  induction d with
  | nil => simp [dDel, dGet]
  | cons p t ih =>
    obtain ⟨k', v'⟩ := p
    by_cases h : k' = k₁
    · have hf : dDel ((k', v') :: t) k₁ = dDel t k₁ := by
        simp [dDel, List.filter_cons, h]
      have hknot : ¬ (k' = k₂) := by rw [h]; exact hne
      rw [hf, ih]
      simp [dGet, hknot]
    · have hf : dDel ((k', v') :: t) k₁ = (k', v') :: dDel t k₁ := by
        simp [dDel, List.filter_cons, h]
      rw [hf]
      by_cases h2 : k' = k₂
      · simp [dGet, h2]
      · simp [dGet, h2, ih]

theorem dGet_dDel_none {κ α : Type} [DecidableEq κ] (d : List (κ × α)) {k₁ k₂ : κ}
    (h : dGet d k₂ = Option.none) : dGet (dDel d k₁) k₂ = Option.none := by
  by_cases he : k₁ = k₂
  · subst he; exact dGet_dDel_self d k₁
  · rw [dGet_dDel_ne d he]; exact h

theorem dGet_dSet_isSome {κ α : Type} [DecidableEq κ] (d : List (κ × α)) {k : κ} (v : α)
    (hk : (dGet d k).isSome = true) (k' : κ) :
    (dGet (dSet d k v) k').isSome = (dGet d k').isSome := by
  by_cases h : k = k'
  · subst h; simp [dGet_dSet_self, hk]
  · rw [dGet_dSet_ne d v h]

theorem lgSetIn_ok_shape {lg : LegendDict} {h : TopKey} {k v : String} {lg' : LegendDict}
    (hl : lgSetIn lg h k v = .ok lg') :
    ∃ inner, dGet lg h = some inner ∧ lg' = dSet lg h (dSet inner k v) := by
  unfold lgSetIn at hl
  cases hlg : dGet lg h with
  | none => rw [hlg] at hl; simp at hl
  | some inner =>
    rw [hlg] at hl
    exact ⟨inner, rfl, (Except.ok.inj hl).symm⟩

theorem topSetIn_ok_shape {sp : TopDict} {h : TopKey} {k : String} {v : Scalar} {sp' : TopDict}
    (hts : topSetIn sp h k v = .ok sp') :
    ∃ d, dGet sp h = some (.vd d) ∧ sp' = dSet sp h (.vd (dSet d k v)) := by
  unfold topSetIn at hts
  cases hsp : dGet sp h with
  | none => rw [hsp] at hts; simp at hts
  | some tv =>
    rw [hsp] at hts
    cases tv with
    | sc s => simp at hts
    | vd d => exact ⟨d, rfl, (Except.ok.inj hts).symm⟩

theorem delItem2_ok_shape {sp : TopDict} {h : TopKey} {k : String} {sp' : TopDict}
    (hd : delItem2 sp h k = .ok sp') :
    ∃ d, dGet sp h = some (.vd d) ∧ (dGet d k).isSome = true ∧
      sp' = dSet sp h (.vd (dDel d k)) := by
  unfold delItem2 at hd
  split at hd
  · simp at hd
  · simp at hd
  · next d heq =>
    split at hd
    · next hk => exact ⟨d, heq, hk, (Except.ok.inj hd).symm⟩
    · simp at hd

/-- C2: for a row that is not skipped, the stored value is computed in this
order: the exact cleaned text `Yes` gives `True`, `No` gives `False`, the
empty string gives `None` (each regardless of the key and before any
converter is consulted); otherwise a key registered in the converter table
stores the converter's result (a `ValueError` becoming the fatal
`FAILED: {k}: {v}` error); otherwise the cleaned string is stored as-is.
The last conjunct checks the computed value is what `parse_specs` stores in
the section. -/
theorem value_typing_order (ctab : ConvTable) (k v : String) :
    rowValue ctab k "Yes" = .ok (.bool true) ∧
    rowValue ctab k "No" = .ok (.bool false) ∧
    rowValue ctab k "" = .ok .none ∧
    (v ≠ "Yes" → v ≠ "No" → v ≠ "" → ∀ f, dGet ctab k = some f →
      rowValue ctab k v = (match f v with
        | .ok x => .ok x
        | .error _ => .error (.valueError ("FAILED: " ++ k ++ ": " ++ v)))) ∧
    (v ≠ "Yes" → v ≠ "No" → v ≠ "" → dGet ctab k = Option.none →
      rowValue ctab k v = .ok (.str v)) ∧
    (∀ (h : TopKey) (sp : TopDict) (lg : LegendDict) (r : Row) (kt vt : String)
       (sv : Scalar) (st' : TopDict × LegendDict),
      r.keyTxt = some kt → r.valTxt = some vt →
      skipIfKey.contains (pyStripS kt) = false →
      skipIfValue.contains (cleantxt (pyStripS vt)) = false →
      rowValue ctab (pyStripS kt) (cleantxt (pyStripS vt)) = .ok sv →
      procRow ctab h (sp, lg) r = .ok st' →
      ∃ d, dGet st'.1 h = some (.vd d) ∧ dGet d (pyStripS kt) = some sv) := by
  refine ⟨by simp [rowValue], by simp [rowValue], by simp [rowValue], ?_, ?_, ?_⟩
  · intro h1 h2 h3 f hf
    simp only [rowValue, if_neg h1, if_neg h2, if_neg h3, hf]
  · intro h1 h2 h3 hf
    simp only [rowValue, if_neg h1, if_neg h2, if_neg h3, hf]
  · intro h sp lg r kt vt sv st' hkt hvt hsk hsv hrv hok
    have hsk' : ¬ pyStripS kt ∈ skipIfKey := by simpa using hsk
    have hsv' : ¬ cleantxt (pyStripS vt) ∈ skipIfValue := by simpa using hsv
    cases hlg : lgSetIn lg h (pyStripS kt) (cleantxt (pyStripS kt)) with
    | error e => simp [procRow, hkt, hsk', hlg] at hok
    | ok lg' =>
      cases hts : topSetIn sp h (pyStripS kt) sv with
      | error e => simp [procRow, hkt, hsk', hlg, hvt, hsv', hrv, hts] at hok
      | ok sp' =>
        simp [procRow, hkt, hsk', hlg, hvt, hsv', hrv, hts] at hok
        obtain ⟨d, hsp, hshape⟩ := topSetIn_ok_shape hts
        have hst : st' = (sp', lg') := by
          cases hok
          rfl
        subst hst
        refine ⟨dSet d (pyStripS kt) sv, ?_, dGet_dSet_self _ _ _⟩
        simpa [hshape] using dGet_dSet_self sp h (TopVal.vd (dSet d (pyStripS kt) sv))

/-- Witness for `value_typing_order` at concrete inputs: a converter table
with an `int`-style `CoreCount` converter; `Yes` wins over the converter,
a failing conversion produces the `FAILED:` error, an unregistered key
stores the string, and a converted value is stored in the section. -/
theorem value_typing_order_witness :
    rowValue exCtab "CoreCount" "Yes" = .ok (.bool true) ∧
    rowValue exCtab "CoreCount" "abc" =
      .error (.valueError "FAILED: CoreCount: abc") ∧
    rowValue exCtab "Memory" "DDR4" = .ok (.str "DDR4") ∧
    ∃ d, dGet (([(some "Essentials", TopVal.vd [("CoreCount", Scalar.int 8)])],
          [(some "Essentials", [("CoreCount", "CoreCount")])]) :
            TopDict × LegendDict).1 (some "Essentials") = some (.vd d) ∧
        dGet d "CoreCount" = some (.int 8) := by
  refine ⟨(value_typing_order exCtab "CoreCount" "Yes").1, ?_, ?_, ?_⟩
  · exact ((value_typing_order exCtab "CoreCount" "abc").2.2.2.1
      (by decide) (by decide) (by decide) exConv rfl)
  · exact ((value_typing_order exCtab "Memory" "DDR4").2.2.2.2.1
      (by decide) (by decide) (by decide) rfl)
  · have h := (value_typing_order exCtab "CoreCount" "8").2.2.2.2.2
      (some "Essentials") [(some "Essentials", TopVal.vd [])]
      [(some "Essentials", [])] exRowOk "CoreCount" "8" (.int 8)
      ([(some "Essentials", TopVal.vd [("CoreCount", Scalar.int 8)])],
       [(some "Essentials", [("CoreCount", "CoreCount")])])
      rfl rfl (by decide) (by decide) rfl rfl
    exact h

/-- C7: a converter failure on a recognised key aborts the page with a
`ValueError` whose message names the key and the cleaned value: the
`rowValue` chain produces exactly `FAILED: {k}: {v}` when the converter
fails, `procRow` propagates that error, a failed section pass makes
`parse_specs` end with that error having emitted no item, and the error is
not the run-aborting `CloseSpider`. -/
theorem conversion_failure_aborts_page :
    (∀ (ctab : ConvTable) (k v : String) (f : Conv) (em : String),
      v ≠ "Yes" → v ≠ "No" → v ≠ "" → dGet ctab k = some f → f v = .error em →
      rowValue ctab k v = .error (.valueError ("FAILED: " ++ k ++ ": " ++ v))) ∧
    (∀ (ctab : ConvTable) (h : TopKey) (sp : TopDict) (lg : LegendDict) (r : Row)
       (kt vt : String) (e : Err),
      r.keyTxt = some kt → r.valTxt = some vt →
      skipIfKey.contains (pyStripS kt) = false →
      skipIfValue.contains (cleantxt (pyStripS vt)) = false →
      (∃ lg', lgSetIn lg h (pyStripS kt) (cleantxt (pyStripS kt)) = .ok lg') →
      rowValue ctab (pyStripS kt) (cleantxt (pyStripS vt)) = .error e →
      procRow ctab h (sp, lg) r = .error e) ∧
    (∀ (ctab : ConvTable) (page : Page) (n : Int) (nm : String) (e : Err),
      parse_prelude page = .ok (n, nm) →
      procSecs ctab (initSpecs page n nm, ([] : LegendDict)) page.sections = .error e →
      parse_specs ctab page = ([], some e)) ∧
    (∀ m m' : String, Err.valueError m ≠ Err.closeSpider m') := by
  refine ⟨?_, ?_, ?_, ?_⟩
  · intro ctab k v f em h1 h2 h3 hf hfv
    simp only [rowValue, if_neg h1, if_neg h2, if_neg h3, hf, hfv]
  · intro ctab h sp lg r kt vt e hkt hvt hsk hsv hex hrv
    obtain ⟨lg', hlg⟩ := hex
    have hsk' : ¬ pyStripS kt ∈ skipIfKey := by simpa using hsk
    have hsv' : ¬ cleantxt (pyStripS vt) ∈ skipIfValue := by simpa using hsv
    simp [procRow, hkt, hsk', hlg, hvt, hsv', hrv]
  · intro ctab page n nm e hp hs
    simp [parse_specs, hp, hs]
  · intro m m' hcon
    cases hcon

/-- Witness for `conversion_failure_aborts_page`: the `CoreCount` converter
fails on `abc`, the failing row makes `procRow` fail with the `FAILED:`
message, and on a page holding that row `parse_specs` emits nothing and
ends with that (page-scoped, non-CloseSpider) error. -/
theorem conversion_failure_aborts_page_witness :
    rowValue exCtab "CoreCount" "abc" =
      .error (.valueError "FAILED: CoreCount: abc") ∧
    procRow exCtab (some "Perf")
        ([(some "Perf", TopVal.vd [])], [(some "Perf", [])]) exRowBad =
      .error (.valueError "FAILED: CoreCount: abc") ∧
    parse_specs exCtab exPageConvFail =
      ([], some (.valueError "FAILED: CoreCount: abc")) ∧
    Err.valueError "FAILED: CoreCount: abc" ≠ Err.closeSpider "x" := by
  refine ⟨?_, ?_, ?_, conversion_failure_aborts_page.2.2.2 _ _⟩
  · exact conversion_failure_aborts_page.1 exCtab "CoreCount" "abc" exConv
      "invalid literal for int" (by decide) (by decide) (by decide) rfl rfl
  · exact conversion_failure_aborts_page.2.1 exCtab (some "Perf")
      [(some "Perf", TopVal.vd [])] [(some "Perf", [])] exRowBad
      "CoreCount" "abc" (.valueError "FAILED: CoreCount: abc")
      rfl rfl (by decide) (by decide)
      ⟨[(some "Perf", [("CoreCount", "CoreCount")])], rfl⟩ rfl
  · exact conversion_failure_aborts_page.2.2.1 exCtab exPageConvFail 7 "N"
      (.valueError "FAILED: CoreCount: abc") rfl rfl

/-- C8: on a series listing page whose breadcrumb text, once stripped, is
not exactly `Processors`, `parse_series` raises the run-aborting
`CloseSpider` and yields no product-page request. -/
theorem series_crumb_mismatch_aborts (p : SeriesPage) (c : String)
    (hc : p.crumb = some c) (hne : pyStripS c ≠ "Processors") :
    parse_series p = ([], some (.closeSpider "Processors not found in crumb")) := by
  simp [parse_series, hc, hne]

/-- Witness for `series_crumb_mismatch_aborts` on a page whose crumb reads
`Specifications`: no request comes out even though a product link exists. -/
theorem series_crumb_mismatch_aborts_witness :
    parse_series exSeriesBad =
      ([], some (.closeSpider "Processors not found in crumb")) :=
  series_crumb_mismatch_aborts exSeriesBad " Specifications " rfl (by decide)

/-- C9: seed-URL validation at construction time: the single-product spider
accepts a URL exactly when it contains `/products/`; the series spider
additionally requires `/series/`; accepted URLs become `start_urls`. -/
theorem seed_url_validation (url : String) :
    (hasSubS "/products/" url = false →
      ∃ m, cpuSpecSpiderInit url = .error (.valueError m)) ∧
    (hasSubS "/products/" url = true → cpuSpecSpiderInit url = .ok [url]) ∧
    ((hasSubS "/products/" url = false ∨ hasSubS "/series/" url = false) →
      ∃ m, seriesSpiderInit url = .error (.valueError m)) ∧
    (hasSubS "/products/" url = true → hasSubS "/series/" url = true →
      seriesSpiderInit url = .ok [url]) := by
  refine ⟨?_, ?_, ?_, ?_⟩
  · intro hm
    by_cases hz : url = ""
    · exact ⟨"Invalid url given", by simp [cpuSpecSpiderInit, hz]⟩
    · exact ⟨"/products/ not found from url " ++ url,
        by simp [cpuSpecSpiderInit, hz, hm]⟩
  · intro hm
    have hz : ¬ url = "" := by
      intro h; subst h; exact absurd hm (by decide)
    simp [cpuSpecSpiderInit, hz, hm]
  · intro hm
    by_cases hz : url = ""
    · exact ⟨"Invalid url given", by simp [seriesSpiderInit, hz]⟩
    · rcases hm with hm | hm
      · exact ⟨"/products/ not found from url " ++ url,
          by simp [seriesSpiderInit, hz, hm]⟩
      · by_cases hp2 : hasSubS "/products/" url = true
        · exact ⟨"/series/ not found from url " ++ url,
            by simp [seriesSpiderInit, hz, hp2, hm]⟩
        · have hp3 : hasSubS "/products/" url = false := by
            cases hq : hasSubS "/products/" url
            · rfl
            · exact absurd hq hp2
          exact ⟨"/products/ not found from url " ++ url,
            by simp [seriesSpiderInit, hz, hp3]⟩
  · intro h1 h2
    have hz : ¬ url = "" := by
      intro h; subst h; exact absurd h1 (by decide)
    simp [seriesSpiderInit, hz, h1, h2]

/-- Witness for `seed_url_validation` at concrete URLs: a URL without the
markers is rejected by both spiders; URLs with the required markers are
accepted. -/
theorem seed_url_validation_witness :
    (∃ m, cpuSpecSpiderInit "https://x/y" = .error (.valueError m)) ∧
    cpuSpecSpiderInit "https://x/products/1" = .ok ["https://x/products/1"] ∧
    (∃ m, seriesSpiderInit "https://x/products/1" = .error (.valueError m)) ∧
    seriesSpiderInit "https://x/products/series/1" =
      .ok ["https://x/products/series/1"] := by
  refine ⟨?_, ?_, ?_, ?_⟩
  · exact (seed_url_validation "https://x/y").1 (by decide)
  · exact (seed_url_validation "https://x/products/1").2.1 (by decide)
  · exact (seed_url_validation "https://x/products/1").2.2.1 (Or.inr (by decide))
  · exact (seed_url_validation "https://x/products/series/1").2.2.2
      (by decide) (by decide)

theorem emit_unknown_noid {sp : TopDict} {lg : LegendDict} {pkgd essd : SectionDict}
    (hpkg : dGet sp (some "Package Specifications") = some (.vd pkgd))
    (hess : dGet sp (some "Essentials") = some (.vd essd))
    (hsock : dGet pkgd "Sockets Supported" = Option.none)
    (hpn : dGet essd "Processor Number" = Option.none) :
    emitItems sp lg = ([Item.legend lg, Item.cpuSpecsUnknown sp], Option.none) := by
  simp [emitItems, hpkg, hess, pyMemTop, hsock, hpn]

theorem emit_unknown_id {sp : TopDict} {lg : LegendDict} {pkgd essd : SectionDict}
    {pv : Scalar}
    (hpkg : dGet sp (some "Package Specifications") = some (.vd pkgd))
    (hess : dGet sp (some "Essentials") = some (.vd essd))
    (hsock : dGet pkgd "Sockets Supported" = Option.none)
    (hpn : dGet essd "Processor Number" = some pv) :
    emitItems sp lg =
      ([Item.legend lg,
        Item.cpuSpecsUnknown
          (dSet (dSet sp (some "id") (.sc pv)) (some "Essentials")
            (.vd (dDel essd "Processor Number")))], Option.none) := by
  have h3 : getItem2 sp (some "Essentials") "Processor Number" = .ok pv := by
    simp [getItem2, hess, hpn]
  have h4 : dGet (dSet sp (some "id") (.sc pv)) (some "Essentials") = some (.vd essd) := by
    rw [dGet_dSet_ne sp (TopVal.sc pv) (by decide)]; exact hess
  have h5 : delItem2 (dSet sp (some "id") (.sc pv)) (some "Essentials") "Processor Number" =
      .ok (dSet (dSet sp (some "id") (.sc pv)) (some "Essentials")
        (.vd (dDel essd "Processor Number"))) := by
    simp [delItem2, h4, hpn]
  simp [emitItems, hpkg, hess, pyMemTop, hsock, hpn, h3, h5]

theorem emit_sock_noid {sp : TopDict} {lg : LegendDict} {pkgd essd : SectionDict}
    {sv : String}
    (hpkg : dGet sp (some "Package Specifications") = some (.vd pkgd))
    (hess : dGet sp (some "Essentials") = some (.vd essd))
    (hsock : dGet pkgd "Sockets Supported" = some (.str sv))
    (hpn : dGet essd "Processor Number" = Option.none) :
    emitItems sp lg =
      (Item.legend lg :: (pySplitS ", " sv).map
        (fun sock => Item.cpuSpecs
          (dSet (dSet sp (some "Package Specifications")
            (.vd (dDel pkgd "Sockets Supported"))) (some "socket") (.sc (.str sock)))),
       Option.none) := by
  have h3 : getItem2 sp (some "Package Specifications") "Sockets Supported" =
      .ok (.str sv) := by
    simp [getItem2, hpkg, hsock]
  have h5 : delItem2 sp (some "Package Specifications") "Sockets Supported" =
      .ok (dSet sp (some "Package Specifications") (.vd (dDel pkgd "Sockets Supported"))) := by
    simp [delItem2, hpkg, hsock]
  simp [emitItems, hpkg, hess, pyMemTop, hsock, hpn, h3, h5]

theorem emit_sock_id {sp : TopDict} {lg : LegendDict} {pkgd essd : SectionDict}
    {sv : String} {pv : Scalar}
    (hpkg : dGet sp (some "Package Specifications") = some (.vd pkgd))
    (hess : dGet sp (some "Essentials") = some (.vd essd))
    (hsock : dGet pkgd "Sockets Supported" = some (.str sv))
    (hpn : dGet essd "Processor Number" = some pv) :
    emitItems sp lg =
      (Item.legend lg :: (pySplitS ", " sv).map
        (fun sock => Item.cpuSpecs
          (dSet (dSet (dSet (dSet sp (some "id") (.sc pv)) (some "Essentials")
              (.vd (dDel essd "Processor Number"))) (some "Package Specifications")
            (.vd (dDel pkgd "Sockets Supported"))) (some "socket") (.sc (.str sock)))),
       Option.none) := by
  have h3 : getItem2 sp (some "Essentials") "Processor Number" = .ok pv := by
    simp [getItem2, hess, hpn]
  have h4 : dGet (dSet sp (some "id") (.sc pv)) (some "Essentials") = some (.vd essd) := by
    rw [dGet_dSet_ne sp (TopVal.sc pv) (by decide)]; exact hess
  have h5 : delItem2 (dSet sp (some "id") (.sc pv)) (some "Essentials") "Processor Number" =
      .ok (dSet (dSet sp (some "id") (.sc pv)) (some "Essentials")
        (.vd (dDel essd "Processor Number"))) := by
    simp [delItem2, h4, hpn]
  have h6 : dGet (dSet (dSet sp (some "id") (.sc pv)) (some "Essentials")
      (.vd (dDel essd "Processor Number"))) (some "Package Specifications") =
      some (.vd pkgd) := by
    rw [dGet_dSet_ne _ _ (by decide), dGet_dSet_ne sp (TopVal.sc pv) (by decide)]
    exact hpkg
  have h7 : getItem2 (dSet (dSet sp (some "id") (.sc pv)) (some "Essentials")
      (.vd (dDel essd "Processor Number"))) (some "Package Specifications")
      "Sockets Supported" = .ok (.str sv) := by
    simp [getItem2, h6, hsock]
  have h8 : delItem2 (dSet (dSet sp (some "id") (.sc pv)) (some "Essentials")
      (.vd (dDel essd "Processor Number"))) (some "Package Specifications")
      "Sockets Supported" =
      .ok (dSet (dSet (dSet sp (some "id") (.sc pv)) (some "Essentials")
        (.vd (dDel essd "Processor Number"))) (some "Package Specifications")
        (.vd (dDel pkgd "Sockets Supported"))) := by
    simp [delItem2, h6, hsock]
  simp [emitItems, hpkg, hess, pyMemTop, hsock, hpn, h3, h5, h7, h8]

theorem parse_specs_eq_emit {ctab : ConvTable} {page : Page} {n : Int} {nm : String}
    {sp : TopDict} {lg : LegendDict}
    (hp : parse_prelude page = .ok (n, nm))
    (hs : procSecs ctab (initSpecs page n nm, ([] : LegendDict)) page.sections =
      .ok (sp, lg)) :
    parse_specs ctab page = emitItems sp lg := by
  simp [parse_specs, hp, hs]

/-- C10 (implicit): `parse_specs` yields the legend item before testing that
the page has `Package Specifications` and `Essentials` sections: when either
header is missing, the legend item has already been emitted and the page
then fails with the corresponding `KeyError` (one item emitted, no product
record); the unknown-socket fallback applies only when the
`Package Specifications` section exists but lacks `Sockets Supported`. -/
theorem legend_emitted_before_section_checks (ctab : ConvTable) (page : Page)
    (n : Int) (nm : String) (sp : TopDict) (lg : LegendDict)
    (hp : parse_prelude page = .ok (n, nm))
    (hs : procSecs ctab (initSpecs page n nm, ([] : LegendDict)) page.sections =
      .ok (sp, lg)) :
    (dGet sp (some "Package Specifications") = Option.none →
      parse_specs ctab page =
        ([Item.legend lg], some (.keyError "Package Specifications"))) ∧
    (∀ pkgd, dGet sp (some "Package Specifications") = some (.vd pkgd) →
      dGet sp (some "Essentials") = Option.none →
      parse_specs ctab page = ([Item.legend lg], some (.keyError "Essentials"))) ∧
    (∀ pkgd essd, dGet sp (some "Package Specifications") = some (.vd pkgd) →
      dGet pkgd "Sockets Supported" = Option.none →
      dGet sp (some "Essentials") = some (.vd essd) →
      ∃ base, parse_specs ctab page =
        ([Item.legend lg, Item.cpuSpecsUnknown base], Option.none)) := by
  have heq := parse_specs_eq_emit hp hs
  refine ⟨?_, ?_, ?_⟩
  · intro hnone
    rw [heq]
    simp [emitItems, hnone]
  · intro pkgd hpkg hnone
    rw [heq]
    simp [emitItems, hpkg, pyMemTop, hnone]
  · intro pkgd essd hpkg hsock hess
    rw [heq]
    cases hpn : dGet essd "Processor Number" with
    | none => exact ⟨sp, emit_unknown_noid hpkg hess hsock hpn⟩
    | some pv =>
      exact ⟨_, emit_unknown_id hpkg hess hsock hpn⟩

/-- Witness for `legend_emitted_before_section_checks`: a page without a
`Package Specifications` section emits the legend and then fails; one
without `Essentials` does the same; one with both but no socket key emits
the unknown-socket record. -/
theorem legend_emitted_before_section_checks_witness :
    parse_specs [] exPageNoPkg =
      ([Item.legend [(some "Specs", [("Highlights", "Highlights"), ("ECC", "ECC")])]],
       some (.keyError "Package Specifications")) ∧
    parse_specs [] exPageNoEss =
      ([Item.legend [(some "Package Specifications", [])]],
       some (.keyError "Essentials")) ∧
    ∃ base, parse_specs [] exPageNeg =
      ([Item.legend [(some "Package Specifications", []), (some "Essentials", [])],
        Item.cpuSpecsUnknown base], Option.none) := by
  refine ⟨?_, ?_, ?_⟩
  · exact (legend_emitted_before_section_checks [] exPageNoPkg 7 "N"
      [(some "URL", .sc (.str "u")), (some "name", .sc (.str "N")),
       (some "arkid", .sc (.int 7)), (some "Specs", .vd [("ECC", .bool true)])]
      [(some "Specs", [("Highlights", "Highlights"), ("ECC", "ECC")])]
      rfl rfl).1 rfl
  · exact (legend_emitted_before_section_checks [] exPageNoEss 7 "N"
      [(some "URL", .sc (.str "u")), (some "name", .sc (.str "N")),
       (some "arkid", .sc (.int 7)), (some "Package Specifications", .vd [])]
      [(some "Package Specifications", [])]
      rfl rfl).2.1 [] rfl rfl
  · exact (legend_emitted_before_section_checks [] exPageNeg (-5) "N"
      [(some "URL", .sc (.str "u")), (some "name", .sc (.str "N")),
       (some "arkid", .sc (.int (-5))), (some "Package Specifications", .vd []),
       (some "Essentials", .vd [])]
      [(some "Package Specifications", []), (some "Essentials", [])]
      rfl rfl).2.2 [] [] rfl rfl rfl

theorem emit_sock_nonstr_noid {sp : TopDict} {lg : LegendDict} {pkgd essd : SectionDict}
    {sockv : Scalar}
    (hpkg : dGet sp (some "Package Specifications") = some (.vd pkgd))
    (hess : dGet sp (some "Essentials") = some (.vd essd))
    (hsock : dGet pkgd "Sockets Supported" = some sockv)
    (hns : ∀ s, sockv ≠ Scalar.str s)
    (hpn : dGet essd "Processor Number" = Option.none) :
    emitItems sp lg = ([Item.legend lg], some .attributeError) := by
  have h3 : getItem2 sp (some "Package Specifications") "Sockets Supported" =
      .ok sockv := by
    simp [getItem2, hpkg, hsock]
  cases sockv with
  | str s => exact absurd rfl (hns s)
  | int v => simp [emitItems, hpkg, hess, pyMemTop, hsock, hpn, h3]
  | bool v => simp [emitItems, hpkg, hess, pyMemTop, hsock, hpn, h3]
  | none => simp [emitItems, hpkg, hess, pyMemTop, hsock, hpn, h3]
  | other t => simp [emitItems, hpkg, hess, pyMemTop, hsock, hpn, h3]

theorem emit_sock_nonstr_id {sp : TopDict} {lg : LegendDict} {pkgd essd : SectionDict}
    {sockv pv : Scalar}
    (hpkg : dGet sp (some "Package Specifications") = some (.vd pkgd))
    (hess : dGet sp (some "Essentials") = some (.vd essd))
    (hsock : dGet pkgd "Sockets Supported" = some sockv)
    (hns : ∀ s, sockv ≠ Scalar.str s)
    (hpn : dGet essd "Processor Number" = some pv) :
    emitItems sp lg = ([Item.legend lg], some .attributeError) := by
  have h3 : getItem2 sp (some "Essentials") "Processor Number" = .ok pv := by
    simp [getItem2, hess, hpn]
  have h4 : dGet (dSet sp (some "id") (.sc pv)) (some "Essentials") = some (.vd essd) := by
    rw [dGet_dSet_ne sp (TopVal.sc pv) (by decide)]; exact hess
  have h5 : delItem2 (dSet sp (some "id") (.sc pv)) (some "Essentials") "Processor Number" =
      .ok (dSet (dSet sp (some "id") (.sc pv)) (some "Essentials")
        (.vd (dDel essd "Processor Number"))) := by
    simp [delItem2, h4, hpn]
  have h6 : dGet (dSet (dSet sp (some "id") (.sc pv)) (some "Essentials")
      (.vd (dDel essd "Processor Number"))) (some "Package Specifications") =
      some (.vd pkgd) := by
    rw [dGet_dSet_ne _ _ (by decide), dGet_dSet_ne sp (TopVal.sc pv) (by decide)]
    exact hpkg
  have h7 : getItem2 (dSet (dSet sp (some "id") (.sc pv)) (some "Essentials")
      (.vd (dDel essd "Processor Number"))) (some "Package Specifications")
      "Sockets Supported" = .ok sockv := by
    simp [getItem2, h6, hsock]
  cases sockv with
  | str s => exact absurd rfl (hns s)
  | int v => simp [emitItems, hpkg, hess, pyMemTop, hsock, hpn, h3, h5, h7]
  | bool v => simp [emitItems, hpkg, hess, pyMemTop, hsock, hpn, h3, h5, h7]
  | none => simp [emitItems, hpkg, hess, pyMemTop, hsock, hpn, h3, h5, h7]
  | other t => simp [emitItems, hpkg, hess, pyMemTop, hsock, hpn, h3, h5, h7]

/-- C5: when the `Essentials` section holds `Processor Number`, every
emitted product record carries that value as top-level `id`, with
`Processor Number` deleted from the record's `Essentials` section; when the
key is absent the records carry no `id` and the `Essentials` section is
left as built. -/
theorem id_hoisting (ctab : ConvTable) (page : Page) (n : Int) (nm : String)
    (sp : TopDict) (lg : LegendDict) (pkgd essd : SectionDict)
    (hp : parse_prelude page = .ok (n, nm))
    (hs : procSecs ctab (initSpecs page n nm, ([] : LegendDict)) page.sections =
      .ok (sp, lg))
    (hpkg : dGet sp (some "Package Specifications") = some (.vd pkgd))
    (hess : dGet sp (some "Essentials") = some (.vd essd)) :
    (∀ pv, dGet essd "Processor Number" = some pv →
      ∀ d, (Item.cpuSpecs d ∈ (parse_specs ctab page).1 ∨
            Item.cpuSpecsUnknown d ∈ (parse_specs ctab page).1) →
        dGet d (some "id") = some (.sc pv) ∧
        dGet d (some "Essentials") = some (.vd (dDel essd "Processor Number")) ∧
        dGet (dDel essd "Processor Number") "Processor Number" = Option.none) ∧
    (dGet essd "Processor Number" = Option.none →
      dGet sp (some "id") = Option.none →
      ∀ d, (Item.cpuSpecs d ∈ (parse_specs ctab page).1 ∨
            Item.cpuSpecsUnknown d ∈ (parse_specs ctab page).1) →
        dGet d (some "id") = Option.none ∧
        dGet d (some "Essentials") = some (.vd essd)) := by
  have heq := parse_specs_eq_emit hp hs
  constructor
  · intro pv hpn d hd
    have hid1 : dGet (dSet (dSet sp (some "id") (.sc pv)) (some "Essentials")
        (.vd (dDel essd "Processor Number"))) (some "id") = some (.sc pv) := by
      rw [dGet_dSet_ne _ _ (by decide)]
      exact dGet_dSet_self sp (some "id") (.sc pv)
    have hes1 : dGet (dSet (dSet sp (some "id") (.sc pv)) (some "Essentials")
        (.vd (dDel essd "Processor Number"))) (some "Essentials") =
        some (.vd (dDel essd "Processor Number")) :=
      dGet_dSet_self _ _ _
    cases hsock : dGet pkgd "Sockets Supported" with
    | none =>
      rw [heq, emit_unknown_id hpkg hess hsock hpn] at hd
      have hd' : d = dSet (dSet sp (some "id") (.sc pv)) (some "Essentials")
          (.vd (dDel essd "Processor Number")) := by
        rcases hd with hd | hd <;> simp at hd <;> tauto
      subst hd'
      exact ⟨hid1, hes1, dGet_dDel_self essd "Processor Number"⟩
    | some sockv =>
      by_cases hstr : ∃ s, sockv = Scalar.str s
      · obtain ⟨sv, rfl⟩ := hstr
        rw [heq, emit_sock_id hpkg hess hsock hpn] at hd
        have hd' : ∃ sock, d = dSet (dSet (dSet (dSet sp (some "id") (.sc pv))
            (some "Essentials") (.vd (dDel essd "Processor Number")))
            (some "Package Specifications") (.vd (dDel pkgd "Sockets Supported")))
            (some "socket") (.sc (.str sock)) := by
          rcases hd with hd | hd <;> simp [List.mem_map] at hd <;> tauto
        obtain ⟨sock, hd'⟩ := hd'
        subst hd'
        refine ⟨?_, ?_, dGet_dDel_self essd "Processor Number"⟩
        · rw [dGet_dSet_ne _ _ (by decide), dGet_dSet_ne _ _ (by decide)]
          exact hid1
        · rw [dGet_dSet_ne _ _ (by decide), dGet_dSet_ne _ _ (by decide)]
          exact hes1
      · have hns : ∀ s, sockv ≠ Scalar.str s := by
          intro s h; exact hstr ⟨s, h⟩
        rw [heq, emit_sock_nonstr_id hpkg hess hsock hns hpn] at hd
        rcases hd with hd | hd <;> simp at hd
  · intro hpn hid d hd
    cases hsock : dGet pkgd "Sockets Supported" with
    | none =>
      rw [heq, emit_unknown_noid hpkg hess hsock hpn] at hd
      have hd' : d = sp := by
        rcases hd with hd | hd <;> simp at hd <;> tauto
      subst hd'
      exact ⟨hid, hess⟩
    | some sockv =>
      by_cases hstr : ∃ s, sockv = Scalar.str s
      · obtain ⟨sv, rfl⟩ := hstr
        rw [heq, emit_sock_noid hpkg hess hsock hpn] at hd
        have hd' : ∃ sock, d = dSet (dSet sp (some "Package Specifications")
            (.vd (dDel pkgd "Sockets Supported"))) (some "socket")
            (.sc (.str sock)) := by
          rcases hd with hd | hd <;> simp [List.mem_map] at hd <;> tauto
        obtain ⟨sock, hd'⟩ := hd'
        subst hd'
        constructor
        · rw [dGet_dSet_ne _ _ (by decide), dGet_dSet_ne _ _ (by decide)]
          exact hid
        · rw [dGet_dSet_ne _ _ (by decide), dGet_dSet_ne _ _ (by decide)]
          exact hess
      · have hns : ∀ s, sockv ≠ Scalar.str s := by
          intro s h; exact hstr ⟨s, h⟩
        rw [heq, emit_sock_nonstr_noid hpkg hess hsock hns hpn] at hd
        rcases hd with hd | hd <;> simp at hd

/-- Witness for `id_hoisting` on `exPageSock`: the first emitted record has
top-level `id = "i7-7700K"` and no `Processor Number` left in `Essentials`. -/
theorem id_hoisting_witness :
    dGet exRecSock1 (some "id") = some (.sc (.str "i7-7700K")) ∧
    dGet exRecSock1 (some "Essentials") =
      some (.vd (dDel [("Processor Number", Scalar.str "i7-7700K")] "Processor Number")) ∧
    dGet (dDel [("Processor Number", Scalar.str "i7-7700K")] "Processor Number")
      "Processor Number" = Option.none :=
  (id_hoisting [] exPageSock 97185 "Core i7-7700K Processor" exSpecsSock exLegendSock
    [("Sockets Supported", .str "FCLGA1700, FCBGA1744")]
    [("Processor Number", .str "i7-7700K")]
    rfl rfl rfl rfl).1 (.str "i7-7700K") rfl exRecSock1 (Or.inl (by decide))

/-- C1: socket expansion.  If the `Package Specifications` section stores
`Sockets Supported` as a string, `parse_specs` emits the legend followed by
exactly one `CPUSpecsItem` per `", "`-separated socket name, all built from
one base record (identical except for the `socket` entry) whose
`Package Specifications` section no longer holds `Sockets Supported`; if the
key is absent, exactly one `CPUSpecsUnknownItem` is emitted, with no
`socket` entry, and no error. -/
theorem parse_specs_socket_expansion (ctab : ConvTable) (page : Page) (n : Int)
    (nm : String) (sp : TopDict) (lg : LegendDict) (pkgd essd : SectionDict)
    (hp : parse_prelude page = .ok (n, nm))
    (hs : procSecs ctab (initSpecs page n nm, ([] : LegendDict)) page.sections =
      .ok (sp, lg))
    (hpkg : dGet sp (some "Package Specifications") = some (.vd pkgd))
    (hess : dGet sp (some "Essentials") = some (.vd essd)) :
    (∀ sv, dGet pkgd "Sockets Supported" = some (.str sv) →
      ∃ base, parse_specs ctab page =
          (Item.legend lg :: (pySplitS ", " sv).map
            (fun sock => Item.cpuSpecs (dSet base (some "socket") (.sc (.str sock)))),
           Option.none) ∧
        dGet base (some "Package Specifications") =
          some (.vd (dDel pkgd "Sockets Supported")) ∧
        dGet (dDel pkgd "Sockets Supported") "Sockets Supported" = Option.none) ∧
    (dGet pkgd "Sockets Supported" = Option.none →
      dGet sp (some "socket") = Option.none →
      ∃ base, parse_specs ctab page =
          ([Item.legend lg, Item.cpuSpecsUnknown base], Option.none) ∧
        dGet base (some "socket") = Option.none) := by
  have heq := parse_specs_eq_emit hp hs
  constructor
  · intro sv hsv
    cases hpn : dGet essd "Processor Number" with
    | none =>
      refine ⟨dSet sp (some "Package Specifications")
        (.vd (dDel pkgd "Sockets Supported")), ?_, ?_,
        dGet_dDel_self pkgd "Sockets Supported"⟩
      · rw [heq, emit_sock_noid hpkg hess hsv hpn]
      · exact dGet_dSet_self _ _ _
    | some pv =>
      refine ⟨dSet (dSet (dSet sp (some "id") (.sc pv)) (some "Essentials")
        (.vd (dDel essd "Processor Number"))) (some "Package Specifications")
        (.vd (dDel pkgd "Sockets Supported")), ?_, ?_,
        dGet_dDel_self pkgd "Sockets Supported"⟩
      · rw [heq, emit_sock_id hpkg hess hsv hpn]
      · exact dGet_dSet_self _ _ _
  · intro hsock hnos
    cases hpn : dGet essd "Processor Number" with
    | none =>
      exact ⟨sp, by rw [heq, emit_unknown_noid hpkg hess hsock hpn], hnos⟩
    | some pv =>
      refine ⟨dSet (dSet sp (some "id") (.sc pv)) (some "Essentials")
        (.vd (dDel essd "Processor Number")),
        by rw [heq, emit_unknown_id hpkg hess hsock hpn], ?_⟩
      rw [dGet_dSet_ne _ _ (by decide), dGet_dSet_ne _ _ (by decide)]
      exact hnos

/-- Witness for `parse_specs_socket_expansion`: `exPageSock` expands into
two records, one per socket of `"FCLGA1700, FCBGA1744"`, and `exPageNeg`
(no socket key) yields one unknown-socket record with no socket entry. -/
theorem parse_specs_socket_expansion_witness :
    (∃ base, parse_specs [] exPageSock =
        (Item.legend exLegendSock :: (pySplitS ", " "FCLGA1700, FCBGA1744").map
          (fun sock => Item.cpuSpecs (dSet base (some "socket") (.sc (.str sock)))),
         Option.none) ∧
      dGet base (some "Package Specifications") =
        some (.vd (dDel [("Sockets Supported", Scalar.str "FCLGA1700, FCBGA1744")]
          "Sockets Supported")) ∧
      dGet (dDel [("Sockets Supported", Scalar.str "FCLGA1700, FCBGA1744")]
        "Sockets Supported") "Sockets Supported" = Option.none) ∧
    (∃ base, parse_specs [] exPageNeg =
        ([Item.legend [(some "Package Specifications", []), (some "Essentials", [])],
          Item.cpuSpecsUnknown base], Option.none) ∧
      dGet base (some "socket") = Option.none) := by
  constructor
  · exact (parse_specs_socket_expansion [] exPageSock 97185 "Core i7-7700K Processor"
      exSpecsSock exLegendSock [("Sockets Supported", .str "FCLGA1700, FCBGA1744")]
      [("Processor Number", .str "i7-7700K")] rfl rfl rfl rfl).1
      "FCLGA1700, FCBGA1744" rfl
  · exact (parse_specs_socket_expansion [] exPageNeg (-5) "N"
      [(some "URL", .sc (.str "u")), (some "name", .sc (.str "N")),
       (some "arkid", .sc (.int (-5))), (some "Package Specifications", .vd []),
       (some "Essentials", .vd [])]
      [(some "Package Specifications", []), (some "Essentials", [])]
      [] [] rfl rfl rfl rfl).2 rfl rfl

theorem getItem2_ok_shape {sp : TopDict} {h : TopKey} {k : String} {v : Scalar}
    (hg : getItem2 sp h k = .ok v) :
    ∃ d, dGet sp h = some (.vd d) ∧ dGet d k = some v := by
  unfold getItem2 at hg
  split at hg
  · simp at hg
  · simp at hg
  · next d heq =>
    split at hg
    · next w hw => exact ⟨d, heq, by rw [hw, Except.ok.inj hg]⟩
    · simp at hg

theorem procRow_pres (Q : TopDict × LegendDict → Prop)
    (h2 : ∀ sp lg h inner k, Q (sp, lg) → dGet lg h = some inner →
      skipIfKey.contains k = false →
      Q (sp, dSet lg h (dSet inner k (cleantxt k))))
    (h3 : ∀ sp lg h d k sv, Q (sp, lg) → dGet sp h = some (.vd d) →
      skipIfKey.contains k = false →
      Q (dSet sp h (.vd (dSet d k sv)), lg)) :
    ∀ (ctab : ConvTable) (h : TopKey) (st : TopDict × LegendDict) (r : Row)
      (st' : TopDict × LegendDict),
      Q st → procRow ctab h st r = .ok st' → Q st' := by
  intro ctab h st r st' hQ hok
  obtain ⟨sp, lg⟩ := st
  cases hkt : r.keyTxt with
  | none => simp [procRow, hkt] at hok
  | some kt =>
    by_cases hskip : skipIfKey.contains (pyStripS kt) = true
    · have hpr : procRow ctab h (sp, lg) r = .ok (sp, lg) := by
        have hmem : pyStripS kt ∈ skipIfKey := by simpa using hskip
        simp [procRow, hkt, hmem]
      rw [hpr] at hok
      cases hok
      exact hQ
    · have hskf : skipIfKey.contains (pyStripS kt) = false := by
        cases hc : skipIfKey.contains (pyStripS kt)
        · rfl
        · exact absurd hc hskip
      have hnmem : ¬ pyStripS kt ∈ skipIfKey := by simpa using hskf
      cases hlg : lgSetIn lg h (pyStripS kt) (cleantxt (pyStripS kt)) with
      | error e => simp [procRow, hkt, hnmem, hlg] at hok
      | ok lg' =>
        obtain ⟨inner, hinner, hlgshape⟩ := lgSetIn_ok_shape hlg
        have hQ2 : Q (sp, lg') := by
          rw [hlgshape]; exact h2 sp lg h inner (pyStripS kt) hQ hinner hskf
        cases hvt : r.valTxt with
        | none => simp [procRow, hkt, hnmem, hlg, hvt] at hok
        | some vt =>
          by_cases hsv : skipIfValue.contains (cleantxt (pyStripS vt)) = true
          · have hmemv : cleantxt (pyStripS vt) ∈ skipIfValue := by simpa using hsv
            have hpr : procRow ctab h (sp, lg) r = .ok (sp, lg') := by
              simp [procRow, hkt, hnmem, hlg, hvt, hmemv]
            rw [hpr] at hok
            cases hok
            exact hQ2
          · have hnmemv : ¬ cleantxt (pyStripS vt) ∈ skipIfValue := by
              simpa using hsv
            cases hrv : rowValue ctab (pyStripS kt) (cleantxt (pyStripS vt)) with
            | error e => simp [procRow, hkt, hnmem, hlg, hvt, hnmemv, hrv] at hok
            | ok sv =>
              cases hts : topSetIn sp h (pyStripS kt) sv with
              | error e =>
                simp [procRow, hkt, hnmem, hlg, hvt, hnmemv, hrv, hts] at hok
              | ok sp' =>
                have hpr : procRow ctab h (sp, lg) r = .ok (sp', lg') := by
                  simp [procRow, hkt, hnmem, hlg, hvt, hnmemv, hrv, hts]
                rw [hpr] at hok
                cases hok
                obtain ⟨d, hd, hshape⟩ := topSetIn_ok_shape hts
                rw [hshape]
                exact h3 sp lg' h d (pyStripS kt) sv hQ2 hd hskf

theorem procRows_pres (Q : TopDict × LegendDict → Prop)
    (h2 : ∀ sp lg h inner k, Q (sp, lg) → dGet lg h = some inner →
      skipIfKey.contains k = false →
      Q (sp, dSet lg h (dSet inner k (cleantxt k))))
    (h3 : ∀ sp lg h d k sv, Q (sp, lg) → dGet sp h = some (.vd d) →
      skipIfKey.contains k = false →
      Q (dSet sp h (.vd (dSet d k sv)), lg)) :
    ∀ (ctab : ConvTable) (h : TopKey) (rows : List Row)
      (st st' : TopDict × LegendDict),
      Q st → procRows ctab h st rows = .ok st' → Q st' := by
  intro ctab h rows
  induction rows with
  | nil =>
    intro st st' hQ hok
    cases hok
    exact hQ
  | cons r rs ih =>
    intro st st' hQ hok
    cases hpr : procRow ctab h st r with
    | error e => simp [procRows, hpr] at hok
    | ok st₁ =>
      have hok' : procRows ctab h st₁ rs = .ok st' := by
        simpa [procRows, hpr] using hok
      exact ih st₁ st' (procRow_pres Q h2 h3 ctab h st r st₁ hQ hpr) hok'

theorem procSec_pres (Q : TopDict × LegendDict → Prop)
    (h2 : ∀ sp lg h inner k, Q (sp, lg) → dGet lg h = some inner →
      skipIfKey.contains k = false →
      Q (sp, dSet lg h (dSet inner k (cleantxt k))))
    (h3 : ∀ sp lg h d k sv, Q (sp, lg) → dGet sp h = some (.vd d) →
      skipIfKey.contains k = false →
      Q (dSet sp h (.vd (dSet d k sv)), lg))
    (h4 : ∀ sp lg h, Q (sp, lg) → (dGet sp h).isSome = false →
      Q (dSet sp h (.vd []), dSet lg h [])) :
    ∀ (ctab : ConvTable) (st : TopDict × LegendDict) (s : Sec)
      (st' : TopDict × LegendDict),
      Q st → procSec ctab st s = .ok st' → Q st' := by
  intro ctab st s st' hQ hok
  obtain ⟨sp, lg⟩ := st
  by_cases hdl : s.linkTxt = some "Download Specifications"
  · have hpr : procSec ctab (sp, lg) s = .ok (sp, lg) := by
      simp [procSec, hdl]
    rw [hpr] at hok
    cases hok
    exact hQ
  · by_cases hhd : (dGet sp s.headerTxt).isSome = true
    · have hpr : procSec ctab (sp, lg) s =
        procRows ctab s.headerTxt (sp, lg) s.rows := by
        simp [procSec, hdl, hhd]
      rw [hpr] at hok
      exact procRows_pres Q h2 h3 ctab s.headerTxt s.rows (sp, lg) st' hQ hok
    · have hf : (dGet sp s.headerTxt).isSome = false := by
        cases hc : (dGet sp s.headerTxt).isSome
        · rfl
        · exact absurd hc hhd
      have hpr : procSec ctab (sp, lg) s =
        procRows ctab s.headerTxt
          (dSet sp s.headerTxt (.vd []), dSet lg s.headerTxt []) s.rows := by
        simp [procSec, hdl, hhd]
      rw [hpr] at hok
      exact procRows_pres Q h2 h3 ctab s.headerTxt s.rows _ st'
        (h4 sp lg s.headerTxt hQ hf) hok

theorem procSecs_pres (Q : TopDict × LegendDict → Prop)
    (h2 : ∀ sp lg h inner k, Q (sp, lg) → dGet lg h = some inner →
      skipIfKey.contains k = false →
      Q (sp, dSet lg h (dSet inner k (cleantxt k))))
    (h3 : ∀ sp lg h d k sv, Q (sp, lg) → dGet sp h = some (.vd d) →
      skipIfKey.contains k = false →
      Q (dSet sp h (.vd (dSet d k sv)), lg))
    (h4 : ∀ sp lg h, Q (sp, lg) → (dGet sp h).isSome = false →
      Q (dSet sp h (.vd []), dSet lg h [])) :
    ∀ (ctab : ConvTable) (ss : List Sec) (st st' : TopDict × LegendDict),
      Q st → procSecs ctab st ss = .ok st' → Q st' := by
  intro ctab ss
  induction ss with
  | nil =>
    intro st st' hQ hok
    cases hok
    exact hQ
  | cons s ss ih =>
    intro st st' hQ hok
    cases hpr : procSec ctab st s with
    | error e => simp [procSecs, hpr] at hok
    | ok st₁ =>
      have hok' : procSecs ctab st₁ ss = .ok st' := by
        simpa [procSecs, hpr] using hok
      exact ih st₁ st' (procSec_pres Q h2 h3 h4 ctab st s st₁ hQ hpr) hok'

theorem emitItems_shape (sp : TopDict) (lg : LegendDict) :
    (∃ e, emitItems sp lg = ([Item.legend lg], some e)) ∨
    (∃ sp1, hoistRel sp sp1 ∧
      emitItems sp lg = ([Item.legend lg, Item.cpuSpecsUnknown sp1], Option.none)) ∨
    (∃ (sp1 : TopDict) (pd : SectionDict) (socks : List String), hoistRel sp sp1 ∧
      dGet sp1 (some "Package Specifications") = some (.vd pd) ∧
      emitItems sp lg = (Item.legend lg :: socks.map (fun so => Item.cpuSpecs
        (dSet (dSet sp1 (some "Package Specifications")
          (.vd (dDel pd "Sockets Supported"))) (some "socket") (.sc (.str so)))),
       Option.none)) := by
  cases hpkg : dGet sp (some "Package Specifications") with
  | none =>
    exact Or.inl ⟨Err.keyError "Package Specifications", by simp [emitItems, hpkg]⟩
  | some pkgv =>
    cases hm1 : pyMemTop pkgv "Sockets Supported" with
    | error e => exact Or.inl ⟨e, by simp [emitItems, hpkg, hm1]⟩
    | ok hasSocket =>
      cases hess : dGet sp (some "Essentials") with
      | none =>
        exact Or.inl ⟨Err.keyError "Essentials", by simp [emitItems, hpkg, hm1, hess]⟩
      | some essv =>
        cases hm2 : pyMemTop essv "Processor Number" with
        | error e => exact Or.inl ⟨e, by simp [emitItems, hpkg, hm1, hess, hm2]⟩
        | ok hasId =>
          cases hasId with
          | false =>
            cases hasSocket with
            | false =>
              exact Or.inr (Or.inl ⟨sp, Or.inl rfl,
                by simp [emitItems, hpkg, hm1, hess, hm2]⟩)
            | true =>
              cases hg : getItem2 sp (some "Package Specifications")
                  "Sockets Supported" with
              | error e =>
                exact Or.inl ⟨e, by simp [emitItems, hpkg, hm1, hess, hm2, hg]⟩
              | ok sockv =>
                cases sockv with
                | str s =>
                  obtain ⟨pd, hpd, hpds⟩ := getItem2_ok_shape hg
                  have hdel2 : delItem2 sp (some "Package Specifications")
                      "Sockets Supported" = .ok (dSet sp
                        (some "Package Specifications")
                        (.vd (dDel pd "Sockets Supported"))) := by
                    simp [delItem2, hpd, hpds]
                  exact Or.inr (Or.inr ⟨sp, pd, pySplitS ", " s, Or.inl rfl, hpd,
                    by simp [emitItems, hpkg, hm1, hess, hm2, hg, hdel2]⟩)
                | int v =>
                  exact Or.inl ⟨.attributeError,
                    by simp [emitItems, hpkg, hm1, hess, hm2, hg]⟩
                | bool v =>
                  exact Or.inl ⟨.attributeError,
                    by simp [emitItems, hpkg, hm1, hess, hm2, hg]⟩
                | none =>
                  exact Or.inl ⟨.attributeError,
                    by simp [emitItems, hpkg, hm1, hess, hm2, hg]⟩
                | other t =>
                  exact Or.inl ⟨.attributeError,
                    by simp [emitItems, hpkg, hm1, hess, hm2, hg]⟩
          | true =>
            cases hgp : getItem2 sp (some "Essentials") "Processor Number" with
            | error e =>
              exact Or.inl ⟨e, by simp [emitItems, hpkg, hm1, hess, hm2, hgp]⟩
            | ok pv =>
              cases hdel : delItem2 (dSet sp (some "id") (.sc pv))
                  (some "Essentials") "Processor Number" with
              | error e =>
                exact Or.inl ⟨e,
                  by simp [emitItems, hpkg, hm1, hess, hm2, hgp, hdel]⟩
              | ok sp1 =>
                obtain ⟨d₀, hd₀, hd₀s, hshape⟩ := delItem2_ok_shape hdel
                have hrel : hoistRel sp sp1 := Or.inr ⟨pv, d₀, hd₀, hshape⟩
                cases hasSocket with
                | false =>
                  exact Or.inr (Or.inl ⟨sp1, hrel,
                    by simp [emitItems, hpkg, hm1, hess, hm2, hgp, hdel]⟩)
                | true =>
                  cases hg : getItem2 sp1 (some "Package Specifications")
                      "Sockets Supported" with
                  | error e =>
                    exact Or.inl ⟨e,
                      by simp [emitItems, hpkg, hm1, hess, hm2, hgp, hdel, hg]⟩
                  | ok sockv =>
                    cases sockv with
                    | str s =>
                      obtain ⟨pd, hpd, hpds⟩ := getItem2_ok_shape hg
                      have hdel2 : delItem2 sp1 (some "Package Specifications")
                          "Sockets Supported" = .ok (dSet sp1
                            (some "Package Specifications")
                            (.vd (dDel pd "Sockets Supported"))) := by
                        simp [delItem2, hpd, hpds]
                      exact Or.inr (Or.inr ⟨sp1, pd, pySplitS ", " s, hrel, hpd,
                        by simp [emitItems, hpkg, hm1, hess, hm2, hgp, hdel, hg,
                          hdel2]⟩)
                    | int v =>
                      exact Or.inl ⟨.attributeError,
                        by simp [emitItems, hpkg, hm1, hess, hm2, hgp, hdel, hg]⟩
                    | bool v =>
                      exact Or.inl ⟨.attributeError,
                        by simp [emitItems, hpkg, hm1, hess, hm2, hgp, hdel, hg]⟩
                    | none =>
                      exact Or.inl ⟨.attributeError,
                        by simp [emitItems, hpkg, hm1, hess, hm2, hgp, hdel, hg]⟩
                    | other t =>
                      exact Or.inl ⟨.attributeError,
                        by simp [emitItems, hpkg, hm1, hess, hm2, hgp, hdel, hg]⟩

theorem emitItems_items_pred (sp : TopDict) (lg : LegendDict) (P : TopDict → Prop)
    (hP : P sp)
    (hSc : ∀ t h v, (h = some "id" ∨ h = some "socket") → P t →
      P (dSet t h (.sc v)))
    (hDel : ∀ t h d k, (h = some "Essentials" ∨ h = some "Package Specifications") →
      P t → dGet t h = some (.vd d) → P (dSet t h (.vd (dDel d k)))) :
    ∀ item ∈ (emitItems sp lg).1, item = Item.legend lg ∨
      ∃ d, (item = Item.cpuSpecs d ∨ item = Item.cpuSpecsUnknown d) ∧ P d := by
  have hP1 : ∀ sp1, hoistRel sp sp1 → P sp1 := by
    intro sp1 hrel
    rcases hrel with rfl | ⟨pv, d₀, hd₀, rfl⟩
    · exact hP
    · exact hDel _ _ _ _ (Or.inl rfl) (hSc _ _ _ (Or.inl rfl) hP) hd₀
  rcases emitItems_shape sp lg with ⟨e, heq⟩ | ⟨sp1, hrel, heq⟩ |
    ⟨sp1, pd, socks, hrel, hpd, heq⟩
  · intro item hit
    rw [heq] at hit
    simp at hit
    exact Or.inl hit
  · intro item hit
    rw [heq] at hit
    simp at hit
    rcases hit with rfl | rfl
    · exact Or.inl rfl
    · exact Or.inr ⟨sp1, Or.inr rfl, hP1 sp1 hrel⟩
  · intro item hit
    rw [heq] at hit
    simp [List.mem_map] at hit
    rcases hit with rfl | ⟨so, hso, rfl⟩
    · exact Or.inl rfl
    · exact Or.inr ⟨_, Or.inl rfl,
        hSc _ _ _ (Or.inr rfl) (hDel _ _ _ _ (Or.inr rfl) (hP1 sp1 hrel) hpd)⟩

/-- C6 (amended): the ark id is parsed by `int()` from segment 6 of the
slash-stripped URL path.  A missing segment is a fatal `IndexError` and a
non-numeric segment a fatal `ValueError`, each before any item is emitted;
when parsing succeeds, every emitted record stores exactly the parsed
integer as `arkid` (which may be zero or negative: positivity is not
enforced, see the counterexample). -/
theorem arkid_parse_behavior (ctab : ConvTable) (page : Page) :
    ((pySplitSeq ['/'] (stripP (fun c => c = '/') page.path.data)).get? 6 =
        Option.none →
      parse_specs ctab page = ([], some .indexError)) ∧
    (∀ seg, (pySplitSeq ['/'] (stripP (fun c => c = '/') page.path.data)).get? 6 =
        some seg → pyInt seg = Option.none →
      parse_specs ctab page =
        ([], some (.valueError ("invalid literal for int: " ++ String.mk seg)))) ∧
    (∀ seg n, (pySplitSeq ['/'] (stripP (fun c => c = '/') page.path.data)).get? 6 =
        some seg → pyInt seg = some n →
      ∀ d, (Item.cpuSpecs d ∈ (parse_specs ctab page).1 ∨
            Item.cpuSpecsUnknown d ∈ (parse_specs ctab page).1) →
        dGet d (some "arkid") = some (.sc (.int n))) := by
  refine ⟨?_, ?_, ?_⟩
  · intro hseg
    have hseg' : (pySplitSeq ['/'] (stripP (fun c => c = '/') page.path.data))[6]? =
        Option.none := by
      rw [← List.get?_eq_getElem?]; exact hseg
    simp [parse_specs, parse_prelude, hseg']
  · intro seg hseg hint
    have hseg' : (pySplitSeq ['/'] (stripP (fun c => c = '/') page.path.data))[6]? =
        some seg := by
      rw [← List.get?_eq_getElem?]; exact hseg
    simp [parse_specs, parse_prelude, hseg', hint]
  · intro seg n hseg hint d hd
    have hseg' : (pySplitSeq ['/'] (stripP (fun c => c = '/') page.path.data))[6]? =
        some seg := by
      rw [← List.get?_eq_getElem?]; exact hseg
    cases hcr : page.crumb with
    | none =>
      have : parse_specs ctab page = ([], some .attributeError) := by
        simp [parse_specs, parse_prelude, hseg', hint, hcr]
      rw [this] at hd
      simp at hd
    | some c =>
      have hp : parse_prelude page = .ok (n, cleantxt c) := by
        simp [parse_prelude, hseg', hint, hcr]
      cases hs : procSecs ctab (initSpecs page n (cleantxt c), ([] : LegendDict))
          page.sections with
      | error e =>
        have : parse_specs ctab page = ([], some e) := by
          simp [parse_specs, hp, hs]
        rw [this] at hd
        simp at hd
      | ok st =>
        obtain ⟨sp, lg⟩ := st
        have heq : parse_specs ctab page = emitItems sp lg :=
          parse_specs_eq_emit hp hs
        have hQ0 : dGet (initSpecs page n (cleantxt c)) (some "arkid") =
            some (.sc (.int n)) := by
          simp [initSpecs, dGet]
        have hQ : dGet sp (some "arkid") = some (.sc (.int n)) := by
          have := procSecs_pres
            (fun st => dGet st.1 (some "arkid") = some (.sc (.int n)))
            (by intro sp' lg' h inner k hq hin hsk; exact hq)
            (by
              intro sp' lg' h d' k sv hq hdh hsk
              have hne : h ≠ some "arkid" := by
                intro he
                rw [he, hq] at hdh
                cases hdh
              rw [dGet_dSet_ne _ _ hne]
              exact hq)
            (by
              intro sp' lg' h hq hf
              have hne : h ≠ some "arkid" := by
                intro he
                rw [he, hq] at hf
                cases hf
              rw [dGet_dSet_ne _ _ hne]
              exact hq)
            ctab page.sections (initSpecs page n (cleantxt c), ([] : LegendDict))
            (sp, lg) hQ0 hs
          exact this
        have hpred := emitItems_items_pred sp lg
          (fun t => dGet t (some "arkid") = some (.sc (.int n))) hQ
          (by
            intro t h v hh hq
            have hne : h ≠ some "arkid" := by
              rcases hh with rfl | rfl <;> decide
            rw [dGet_dSet_ne _ _ hne]
            exact hq)
          (by
            intro t h d' k hh hq hdh
            have hne : h ≠ some "arkid" := by
              rcases hh with rfl | rfl <;> decide
            rw [dGet_dSet_ne _ _ hne]
            exact hq)
        rw [heq] at hd
        rcases hd with hd | hd
        · rcases hpred _ hd with he | ⟨d', hd', hP⟩
          · cases he
          · rcases hd' with hd' | hd'
            · cases hd'
              exact hP
            · cases hd'
        · rcases hpred _ hd with he | ⟨d', hd', hP⟩
          · cases he
          · rcases hd' with hd' | hd'
            · cases hd'
            · cases hd'
              exact hP

/-- Counterexample to C6 as stated: the claim says the stored `arkId` is a
positive integer, but `int()` accepts a signed segment, so a product URL
whose seventh path segment is `-5` yields a record storing `arkid = -5`
with no error. -/
theorem arkid_not_positive_cex :
    (parse_specs [] exPageNeg).2 = Option.none ∧
    Item.cpuSpecsUnknown exRecNeg ∈ (parse_specs [] exPageNeg).1 ∧
    dGet exRecNeg (some "arkid") = some (.sc (.int (-5))) ∧
    ¬ (0 < (-5 : Int)) := by
  refine ⟨rfl, by decide, rfl, by decide⟩

/-- Witness for `arkid_parse_behavior` at concrete pages: a short path is
an `IndexError`, a non-numeric segment a `ValueError`, and a parsed segment
is stored as `arkid` in the emitted record. -/
theorem arkid_parse_behavior_witness :
    parse_specs [] exPageIdx = ([], some .indexError) ∧
    parse_specs [] exPageBadId =
      ([], some (.valueError ("invalid literal for int: " ++ "x7"))) ∧
    dGet exRecNeg (some "arkid") = some (.sc (.int (-5))) := by
  refine ⟨?_, ?_, ?_⟩
  · exact (arkid_parse_behavior [] exPageIdx).1 rfl
  · exact (arkid_parse_behavior [] exPageBadId).2.1 "x7".data rfl rfl
  · exact (arkid_parse_behavior [] exPageNeg).2.2 "-5".data (-5) rfl rfl
      exRecNeg (Or.inr (by decide))

theorem mem_removeAllAux {pat : List Char} :
    ∀ (l : List Char) (n : Nat) (a : Char), a ∈ removeAllAux pat l n → a ∈ l := by
  intro l
  induction l with
  | nil => intro n a h; simp [removeAllAux] at h
  | cons c t ih =>
    intro n a h
    cases n with
    | succ m =>
      simp only [removeAllAux] at h
      exact List.mem_cons_of_mem c (ih m a h)
    | zero =>
      simp only [removeAllAux] at h
      by_cases hg : (pat != [] && pat.isPrefixOf (c :: t)) = true
      · rw [if_pos hg] at h
        exact List.mem_cons_of_mem c (ih _ a h)
      · rw [if_neg hg] at h
        rcases List.mem_cons.mp h with rfl | h'
        · exact List.mem_cons_self a t
        · exact List.mem_cons_of_mem c (ih 0 a h')

theorem mem_removeAll {pat l : List Char} {a : Char}
    (h : a ∈ removeAll pat l) : a ∈ l :=
  mem_removeAllAux l 0 a h

theorem not_mem_removeAll_single (c : Char) :
    ∀ l : List Char, c ∉ removeAll [c] l := by
  intro l
  induction l with
  | nil => simp [removeAll, removeAllAux]
  | cons x t ih =>
    by_cases hx : x = c
    · have hg : (([c] : List Char) != [] && [c].isPrefixOf (x :: t)) = true := by
        simp [List.isPrefixOf, hx]
      show c ∉ removeAllAux [c] (x :: t) 0
      simp only [removeAllAux, hg, if_true]
      simpa [removeAll] using ih
    · have hp : ([c] : List Char).isPrefixOf (x :: t) = false := by
        simp [List.isPrefixOf]
        exact fun he => hx he.symm
      have hg : (([c] : List Char) != [] && [c].isPrefixOf (x :: t)) = false := by
        simp [hp]
      show c ∉ removeAllAux [c] (x :: t) 0
      simp only [removeAllAux, hg]
      intro hmem
      rw [if_neg (by simp)] at hmem
      rcases List.mem_cons.mp hmem with rfl | hmem'
      · exact hx rfl
      · exact ih hmem'

theorem removeAll_of_hasSub_false {pat : List Char} :
    ∀ l, hasSub pat l = false → removeAll pat l = l := by
  intro l
  induction l with
  | nil => intro h; rfl
  | cons c t ih =>
    intro h
    have h1 : pat.isPrefixOf (c :: t) = false ∧ hasSub pat t = false := by
      simpa [hasSub] using h
    have hg : (pat != [] && pat.isPrefixOf (c :: t)) = false := by
      simp [h1.1]
    show removeAllAux pat (c :: t) 0 = c :: t
    simp only [removeAllAux, hg]
    rw [if_neg (by simp)]
    have := ih h1.2
    simp only [removeAll] at this
    rw [this]

theorem hasSub_single_eq_false {c : Char} :
    ∀ l : List Char, c ∉ l → hasSub [c] l = false := by
  intro l
  induction l with
  | nil => intro h; rfl
  | cons x t ih =>
    intro h
    have h1 : ([c] : List Char).isPrefixOf (x :: t) = false := by
      simp [List.isPrefixOf]
      intro he
      exact h (by rw [he]; exact List.mem_cons_self x t)
    simp only [hasSub, h1, Bool.false_or]
    exact ih (fun hm => h (List.mem_cons_of_mem x hm))

theorem removeAll_single_of_not_mem {c : Char} {l : List Char} (h : c ∉ l) :
    removeAll [c] l = l :=
  removeAll_of_hasSub_false l (hasSub_single_eq_false l h)

theorem pyWordsAux_sound :
    ∀ (l cur : List Char), (∀ c ∈ cur, isPySpace c = false) →
      ∀ w ∈ pyWordsAux cur l, w ≠ [] ∧ ∀ c ∈ w, isPySpace c = false := by
  intro l
  induction l with
  | nil =>
    intro cur hcur w hw
    simp only [pyWordsAux] at hw
    by_cases hc : cur.isEmpty = true
    · rw [if_pos hc] at hw; simp at hw
    · rw [if_neg hc] at hw
      simp at hw
      subst hw
      have hne : cur ≠ [] := by intro h; subst h; exact hc rfl
      refine ⟨by simp [hne], ?_⟩
      intro c hcw
      exact hcur c (List.mem_reverse.mp hcw)
  | cons x t ih =>
    intro cur hcur w hw
    simp only [pyWordsAux] at hw
    by_cases hx : isPySpace x = true
    · rw [if_pos hx] at hw
      by_cases hc : cur.isEmpty = true
      · rw [if_pos hc] at hw
        exact ih [] (by simp) w hw
      · rw [if_neg hc] at hw
        rcases List.mem_cons.mp hw with rfl | hw'
        · have hne : cur ≠ [] := by intro h; subst h; exact hc rfl
          refine ⟨by simp [hne], ?_⟩
          intro c hcw
          exact hcur c (List.mem_reverse.mp hcw)
        · exact ih [] (by simp) w hw'
    · rw [if_neg hx] at hw
      refine ih (x :: cur) ?_ w hw
      intro c hcc
      rcases List.mem_cons.mp hcc with rfl | hcc'
      · cases hb : isPySpace c
        · rfl
        · exact absurd hb hx
      · exact hcur c hcc'

theorem mem_pyWordsAux_chars :
    ∀ (l cur w : List Char) (a : Char),
      w ∈ pyWordsAux cur l → a ∈ w → a ∈ cur ∨ a ∈ l := by
  intro l
  induction l with
  | nil =>
    intro cur w a hw ha
    simp only [pyWordsAux] at hw
    by_cases hc : cur.isEmpty = true
    · rw [if_pos hc] at hw; simp at hw
    · rw [if_neg hc] at hw
      simp at hw
      subst hw
      exact Or.inl (List.mem_reverse.mp ha)
  | cons x t ih =>
    intro cur w a hw ha
    simp only [pyWordsAux] at hw
    by_cases hx : isPySpace x = true
    · rw [if_pos hx] at hw
      by_cases hc : cur.isEmpty = true
      · rw [if_pos hc] at hw
        rcases ih [] w a hw ha with h | h
        · simp at h
        · exact Or.inr (List.mem_cons_of_mem x h)
      · rw [if_neg hc] at hw
        rcases List.mem_cons.mp hw with rfl | hw'
        · exact Or.inl (List.mem_reverse.mp ha)
        · rcases ih [] w a hw' ha with h | h
          · simp at h
          · exact Or.inr (List.mem_cons_of_mem x h)
    · rw [if_neg hx] at hw
      rcases ih (x :: cur) w a hw ha with h | h
      · rcases List.mem_cons.mp h with rfl | h'
        · exact Or.inr (List.mem_cons_self a t)
        · exact Or.inl h'
      · exact Or.inr (List.mem_cons_of_mem x h)

theorem pyWordsAux_append :
    ∀ (w l cur : List Char), (∀ c ∈ w, isPySpace c = false) →
      pyWordsAux cur (w ++ l) = pyWordsAux (w.reverse ++ cur) l := by
  intro w
  induction w with
  | nil => intro l cur h; simp
  | cons c w' ih =>
    intro l cur h
    have hc : isPySpace c = false := h c (List.mem_cons_self c w')
    show pyWordsAux cur (c :: (w' ++ l)) = pyWordsAux ((c :: w').reverse ++ cur) l
    simp only [pyWordsAux, hc]
    rw [if_neg (by simp)]
    rw [ih l (c :: cur) (fun d hd => h d (List.mem_cons_of_mem c hd))]
    congr 1
    simp [List.reverse_cons, List.append_assoc]

theorem pyWords_joinWords :
    ∀ ws : List (List Char),
      (∀ w ∈ ws, w ≠ [] ∧ ∀ c ∈ w, isPySpace c = false) →
      pyWords (joinWords ws) = ws := by
  intro ws
  induction ws with
  | nil => intro h; rfl
  | cons w ws' ih =>
    intro h
    have hw := h w (List.mem_cons_self w ws')
    have hrevne : w.reverse.isEmpty = false := by
      cases hwv : w.reverse with
      | nil => exact absurd (by simpa using hwv) hw.1
      | cons a b => rfl
    cases ws' with
    | nil =>
      show pyWordsAux [] (joinWords [w]) = [w]
      have hj : joinWords [w] = w := rfl
      rw [hj]
      have ha := pyWordsAux_append w [] [] hw.2
      rw [List.append_nil, List.append_nil] at ha
      rw [ha]
      simp only [pyWordsAux, hrevne]
      rw [if_neg (by simp)]
      simp
    | cons x ws'' =>
      show pyWordsAux [] (joinWords (w :: x :: ws'')) = w :: x :: ws''
      have hj : joinWords (w :: x :: ws'') = w ++ ' ' :: joinWords (x :: ws'') := rfl
      rw [hj]
      have ha := pyWordsAux_append w (' ' :: joinWords (x :: ws'')) [] hw.2
      rw [List.append_nil] at ha
      rw [ha]
      simp only [pyWordsAux]
      rw [if_pos (show isPySpace ' ' = true from rfl),
        if_neg (show ¬ w.reverse.isEmpty = true by simp [hrevne])]
      have := ih (fun v hv => h v (List.mem_cons_of_mem w hv))
      simp only [pyWords] at this
      rw [this, List.reverse_reverse]

theorem joinWords_head :
    ∀ ws : List (List Char),
      (∀ w ∈ ws, w ≠ [] ∧ ∀ c ∈ w, isPySpace c = false) →
      ws = [] ∨ ∃ c t, joinWords ws = c :: t ∧ isPySpace c = false := by
  intro ws h
  cases ws with
  | nil => exact Or.inl rfl
  | cons w ws' =>
    refine Or.inr ?_
    obtain ⟨hne, hsf⟩ := h w (List.mem_cons_self w ws')
    cases hwv : w with
    | nil => exact absurd hwv hne
    | cons c w₀ =>
      have hc : isPySpace c = false :=
        hsf c (by rw [hwv]; exact List.mem_cons_self c w₀)
      cases ws' with
      | nil => exact ⟨c, w₀, rfl, hc⟩
      | cons x ws'' => exact ⟨c, w₀ ++ ' ' :: joinWords (x :: ws''), rfl, hc⟩

theorem joinWords_reverse_head :
    ∀ ws : List (List Char),
      (∀ w ∈ ws, w ≠ [] ∧ ∀ c ∈ w, isPySpace c = false) →
      ws = [] ∨ ∃ c t, (joinWords ws).reverse = c :: t ∧ isPySpace c = false := by
  intro ws
  induction ws with
  | nil => intro h; exact Or.inl rfl
  | cons w ws' ih =>
    intro h
    refine Or.inr ?_
    obtain ⟨hne, hsf⟩ := h w (List.mem_cons_self w ws')
    cases ws' with
    | nil =>
      cases hwv : w.reverse with
      | nil => exact absurd (by simpa using hwv) hne
      | cons c t =>
        refine ⟨c, t, hwv, ?_⟩
        exact hsf c (List.mem_reverse.mp (by rw [hwv]; exact List.mem_cons_self c t))
    | cons x ws'' =>
      rcases ih (fun v hv => h v (List.mem_cons_of_mem w hv)) with he | ⟨c, t, hct, hc⟩
      · simp at he
      · refine ⟨c, t ++ ' ' :: w.reverse, ?_, hc⟩
        rw [show joinWords (w :: x :: ws'') = w ++ ' ' :: joinWords (x :: ws'')
          from rfl]
        rw [List.reverse_append, List.reverse_cons, hct]
        simp

theorem stripP_joinWords (ws : List (List Char))
    (h : ∀ w ∈ ws, w ≠ [] ∧ ∀ c ∈ w, isPySpace c = false) :
    stripP isPySpace (joinWords ws) = joinWords ws := by
  rcases joinWords_head ws h with rfl | ⟨c, t, hct, hc⟩
  · rfl
  · have h1 : (joinWords ws).dropWhile isPySpace = joinWords ws := by
      rw [hct, List.dropWhile_cons]
      simp [hc]
    rcases joinWords_reverse_head ws h with rfl | ⟨c', t', hct', hc'⟩
    · simp [joinWords] at hct
    · have h2 : (joinWords ws).reverse.dropWhile isPySpace = (joinWords ws).reverse := by
        rw [hct', List.dropWhile_cons]
        simp [hc']
      unfold stripP
      rw [h1, h2, List.reverse_reverse]

theorem mem_joinWords :
    ∀ (ws : List (List Char)) (a : Char),
      a ∈ joinWords ws → (∃ w ∈ ws, a ∈ w) ∨ a = ' ' := by
  intro ws
  induction ws with
  | nil => intro a h; simp [joinWords] at h
  | cons w ws' ih =>
    intro a h
    cases ws' with
    | nil => exact Or.inl ⟨w, List.mem_cons_self w [], h⟩
    | cons x ws'' =>
      have h' : a ∈ w ++ ' ' :: joinWords (x :: ws'') := h
      rcases List.mem_append.mp h' with hw | hrest
      · exact Or.inl ⟨w, List.mem_cons_self w _, hw⟩
      · rcases List.mem_cons.mp hrest with rfl | hj
        · exact Or.inr rfl
        · rcases ih a hj with ⟨w', hw', ha⟩ | hsp
          · exact Or.inl ⟨w', List.mem_cons_of_mem w hw', ha⟩
          · exact Or.inr hsp

theorem mem_stripP {p : Char → Bool} {l : List Char} {a : Char}
    (h : a ∈ stripP p l) : a ∈ l := by
  unfold stripP at h
  have h1 := List.mem_reverse.mp h
  have h2 := (List.dropWhile_sublist (p := p)
    (l := (l.dropWhile p).reverse)).subset h1
  have h3 := List.mem_reverse.mp h2
  exact (List.dropWhile_sublist (p := p) (l := l)).subset h3

theorem wsNorm_idem (l : List Char) : wsNorm (wsNorm l) = wsNorm l := by
  have hws : ∀ w ∈ pyWords l, w ≠ [] ∧ ∀ c ∈ w, isPySpace c = false := by
    intro w hw
    exact pyWordsAux_sound l [] (by simp) w hw
  have h1 : stripP isPySpace (joinWords (pyWords l)) = joinWords (pyWords l) :=
    stripP_joinWords _ hws
  have e1 : wsNorm l = joinWords (pyWords l) := h1
  rw [e1]
  show stripP isPySpace (joinWords (pyWords (joinWords (pyWords l)))) =
    joinWords (pyWords l)
  rw [pyWords_joinWords _ hws]
  exact h1

theorem mem_wsNorm {l : List Char} {a : Char} (h : a ∈ wsNorm l) :
    a ∈ l ∨ a = ' ' := by
  unfold wsNorm at h
  have h1 := mem_stripP h
  rcases mem_joinWords _ a h1 with ⟨w, hw, ha⟩ | hsp
  · rcases mem_pyWordsAux_chars l [] w a hw ha with hc | hc
    · simp at hc
    · exact Or.inl hc
  · exact Or.inr hsp

theorem not_mem_cleantxtL (l : List Char) (c : Char) (hc : c ≠ ' ')
    (hin : c = '™' ∨ c = '®' ∨ c = '‡') : c ∉ cleantxtL l := by
  intro hmem
  unfold cleantxtL at hmem
  rcases mem_wsNorm hmem with h | h
  · rcases hin with rfl | rfl | rfl
    · exact not_mem_removeAll_single '™' _
        (mem_removeAll (mem_removeAll h))
    · exact not_mem_removeAll_single '®' _ (mem_removeAll h)
    · exact not_mem_removeAll_single '‡' _ h
  · exact hc h

theorem cleantxtL_idem (l : List Char)
    (h : hasSub intelPat (cleantxtL l) = false) :
    cleantxtL (cleantxtL l) = cleantxtL l := by
  have h1 : removeAll intelPat (cleantxtL l) = cleantxtL l :=
    removeAll_of_hasSub_false _ h
  have h2 : removeAll ['™'] (cleantxtL l) = cleantxtL l :=
    removeAll_single_of_not_mem (not_mem_cleantxtL l '™' (by decide) (Or.inl rfl))
  have h3 : removeAll ['®'] (cleantxtL l) = cleantxtL l :=
    removeAll_single_of_not_mem
      (not_mem_cleantxtL l '®' (by decide) (Or.inr (Or.inl rfl)))
  have h4 : removeAll ['‡'] (cleantxtL l) = cleantxtL l :=
    removeAll_single_of_not_mem
      (not_mem_cleantxtL l '‡' (by decide) (Or.inr (Or.inr rfl)))
  have hstep : cleantxtL (cleantxtL l) = wsNorm (cleantxtL l) := by
    show wsNorm (removeAll ['‡'] (removeAll ['®'] (removeAll ['™']
      (removeAll intelPat (cleantxtL l))))) = wsNorm (cleantxtL l)
    rw [h1, h2, h3, h4]
  rw [hstep]
  show wsNorm (wsNorm (removeAll ['‡'] (removeAll ['®'] (removeAll ['™']
    (removeAll intelPat l))))) = cleantxtL l
  rw [wsNorm_idem]
  rfl

/-- Counterexample to C3 as stated: `cleantxt` is not idempotent.  Removing
`Intel` in a single left-to-right pass can splice a new `Intel` occurrence
together, so `cleantxt "IntIntelel" = "Intel"` while a second application
gives `""`. -/
theorem cleantxt_not_idempotent_cex :
    cleantxt "IntIntelel" = "Intel" ∧
    cleantxt (cleantxt "IntIntelel") = "" ∧
    cleantxt (cleantxt "IntIntelel") ≠ cleantxt "IntIntelel" := by
  refine ⟨by decide, by decide, by decide⟩

/-- C3 (amended): `cleantxt` is total by construction (a Lean function on
all of `String`), and it is idempotent on every string whose cleaned form
contains no occurrence of `Intel` — the only way idempotence can fail is
the brand-removal pass splicing a new `Intel` together (see the
counterexample).  The trademark glyphs can never survive one application,
and the whitespace normalisation is idempotent outright. -/
theorem cleantxt_idempotent_of_no_intel (s : String)
    (h : hasSubS "Intel" (cleantxt s) = false) :
    cleantxt (cleantxt s) = cleantxt s := by
  show String.mk (cleantxtL (cleantxtL s.data)) = String.mk (cleantxtL s.data)
  have h' : hasSub intelPat (cleantxtL s.data) = false := h
  rw [cleantxtL_idem s.data h']

/-- Witness for `cleantxt_idempotent_of_no_intel` on a realistic branded
product name. -/
theorem cleantxt_idempotent_of_no_intel_witness :
    hasSubS "Intel" (cleantxt "Intel® Core™ i7-7700K  Processor") = false ∧
    cleantxt (cleantxt "Intel® Core™ i7-7700K  Processor") =
      cleantxt "Intel® Core™ i7-7700K  Processor" :=
  ⟨by decide, cleantxt_idempotent_of_no_intel _ (by decide)⟩

theorem dGet_mem {κ α : Type} [DecidableEq κ] :
    ∀ (d : List (κ × α)) (k : κ) (v : α), dGet d k = some v → (k, v) ∈ d := by
  intro d
  induction d with
  | nil => intro k v h; simp [dGet] at h
  | cons p t ih =>
    intro k v h
    obtain ⟨k', v'⟩ := p
    by_cases he : k' = k
    · subst he
      simp [dGet] at h
      subst h
      exact List.mem_cons_self _ _
    · simp [dGet, he] at h
      exact List.mem_cons_of_mem _ (ih k v h)

theorem topFree_initSpecs (page : Page) (n : Int) (nm : String) (k : String) :
    topFree (initSpecs page n nm) k := by
  intro h d hd
  have := dGet_mem _ _ _ hd
  simp [initSpecs] at this

theorem skipKey_secs_inv (k : String) (hk : k ∈ skipIfKey) :
    ∀ (ctab : ConvTable) (ss : List Sec) (st st' : TopDict × LegendDict),
      (topFree st.1 k ∧ lgFree st.2 k) → procSecs ctab st ss = .ok st' →
      topFree st'.1 k ∧ lgFree st'.2 k := by
  intro ctab ss st st' hQ hok
  refine procSecs_pres (fun st => topFree st.1 k ∧ lgFree st.2 k)
    ?_ ?_ ?_ ctab ss st st' hQ hok
  · intro sp lg h inner k₁ hq hin hsk
    have hne : k₁ ≠ k := by
      intro he
      subst he
      exact absurd (by simpa using hk) (by simpa using hsk)
    refine ⟨hq.1, ?_⟩
    intro h' inner' hin'
    by_cases hh : h = h'
    · subst hh
      rw [dGet_dSet_self] at hin'
      cases hin'
      rw [dGet_dSet_ne _ _ hne]
      exact hq.2 h inner hin
    · rw [dGet_dSet_ne _ _ hh] at hin'
      exact hq.2 h' inner' hin'
  · intro sp lg h d k₁ sv hq hd hsk
    have hne : k₁ ≠ k := by
      intro he
      subst he
      exact absurd (by simpa using hk) (by simpa using hsk)
    refine ⟨?_, hq.2⟩
    intro h' d' hd'
    by_cases hh : h = h'
    · subst hh
      rw [dGet_dSet_self] at hd'
      cases hd'
      rw [dGet_dSet_ne _ _ hne]
      exact hq.1 h d hd
    · rw [dGet_dSet_ne _ _ hh] at hd'
      exact hq.1 h' d' hd'
  · intro sp lg h hq hf
    constructor
    · intro h' d' hd'
      by_cases hh : h = h'
      · subst hh
        rw [dGet_dSet_self] at hd'
        cases hd'
        rfl
      · rw [dGet_dSet_ne _ _ hh] at hd'
        exact hq.1 h' d' hd'
    · intro h' inner' hin'
      by_cases hh : h = h'
      · subst hh
        rw [dGet_dSet_self] at hin'
        cases hin'
        rfl
      · rw [dGet_dSet_ne _ _ hh] at hin'
        exact hq.2 h' inner' hin'

theorem topFree_emit (sp : TopDict) (lg : LegendDict) (k : String)
    (hsp : topFree sp k) :
    ∀ item ∈ (emitItems sp lg).1, item = Item.legend lg ∨
      ∃ d, (item = Item.cpuSpecs d ∨ item = Item.cpuSpecsUnknown d) ∧ topFree d k := by
  refine emitItems_items_pred sp lg (fun t => topFree t k) hsp ?_ ?_
  · intro t h v _ hq h' d' hd'
    by_cases hh : h = h'
    · subst hh
      rw [dGet_dSet_self] at hd'
      cases hd'
    · rw [dGet_dSet_ne _ _ hh] at hd'
      exact hq h' d' hd'
  · intro t h d k' _ hq hdh h' d' hd'
    by_cases hh : h = h'
    · subst hh
      rw [dGet_dSet_self] at hd'
      cases hd'
      exact dGet_dDel_none d (hq h d hdh)
    · rw [dGet_dSet_ne _ _ hh] at hd'
      exact hq h' d' hd'

theorem lgKeysSub_initSpecs (page : Page) (n : Int) (nm : String) :
    lgKeysSub (initSpecs page n nm, ([] : LegendDict)) := by
  intro h hs
  simp [dGet] at hs

theorem q2_pres (h₀ : TopKey) (k : String) :
    ∀ (ctab : ConvTable) (ss : List Sec) (st st' : TopDict × LegendDict),
      (lgKeysSub st ∧ legAt st.2 h₀ k) → procSecs ctab st ss = .ok st' →
      lgKeysSub st' ∧ legAt st'.2 h₀ k := by
  intro ctab ss st st' hQ hok
  refine procSecs_pres (fun st => lgKeysSub st ∧ legAt st.2 h₀ k)
    ?_ ?_ ?_ ctab ss st st' hQ hok
  · intro sp lg h inner k₁ hq hin hsk
    constructor
    · intro h' hs
      rw [dGet_dSet_isSome lg _ (by rw [hin]; rfl) h'] at hs
      exact hq.1 h' hs
    · obtain ⟨inner₀, hin₀, hk₀⟩ := hq.2
      by_cases hh : h = h₀
      · subst hh
        rw [hin] at hin₀
        cases hin₀
        refine ⟨dSet inner k₁ (cleantxt k₁), dGet_dSet_self _ _ _, ?_⟩
        by_cases hkk : k₁ = k
        · subst hkk
          exact dGet_dSet_self _ _ _
        · rw [dGet_dSet_ne _ _ hkk]
          exact hk₀
      · exact ⟨inner₀, by rw [dGet_dSet_ne _ _ hh]; exact hin₀, hk₀⟩
  · intro sp lg h d k₁ sv hq hd hsk
    refine ⟨?_, hq.2⟩
    intro h' hs
    rw [dGet_dSet_isSome sp _ (by rw [hd]; rfl) h']
    exact hq.1 h' hs
  · intro sp lg h hq hf
    constructor
    · intro h' hs
      by_cases hh : h = h'
      · subst hh
        rw [dGet_dSet_self]
        rfl
      · rw [dGet_dSet_ne _ _ hh] at hs
        rw [dGet_dSet_ne _ _ hh]
        exact hq.1 h' hs
    · obtain ⟨inner₀, hin₀, hk₀⟩ := hq.2
      have hh : h ≠ h₀ := by
        intro he
        subst he
        have := hq.1 h (by rw [hin₀]; rfl)
        rw [this] at hf
        cases hf
      exact ⟨inner₀, by rw [dGet_dSet_ne _ _ hh]; exact hin₀, hk₀⟩

theorem lgKeysSub_pres :
    ∀ (ctab : ConvTable) (ss : List Sec) (st st' : TopDict × LegendDict),
      lgKeysSub st → procSecs ctab st ss = .ok st' → lgKeysSub st' := by
  intro ctab ss st st' hQ hok
  refine procSecs_pres lgKeysSub ?_ ?_ ?_ ctab ss st st' hQ hok
  · intro sp lg h inner k₁ hq hin hsk h' hs
    rw [dGet_dSet_isSome lg _ (by rw [hin]; rfl) h'] at hs
    exact hq h' hs
  · intro sp lg h d k₁ sv hq hd hsk h' hs
    rw [dGet_dSet_isSome sp _ (by rw [hd]; rfl) h']
    exact hq h' hs
  · intro sp lg h hq hf h' hs
    by_cases hh : h = h'
    · subst hh
      rw [dGet_dSet_self]
      rfl
    · rw [dGet_dSet_ne _ _ hh] at hs
      rw [dGet_dSet_ne _ _ hh]
      exact hq h' hs

theorem lgKeysSub_procRow :
    ∀ (ctab : ConvTable) (h : TopKey) (st : TopDict × LegendDict) (r : Row)
      (st' : TopDict × LegendDict),
      lgKeysSub st → procRow ctab h st r = .ok st' → lgKeysSub st' := by
  refine procRow_pres lgKeysSub ?_ ?_
  · intro sp lg h inner k₁ hq hin hsk h' hs
    rw [dGet_dSet_isSome lg _ (by rw [hin]; rfl) h'] at hs
    exact hq h' hs
  · intro sp lg h d k₁ sv hq hd hsk h' hs
    rw [dGet_dSet_isSome sp _ (by rw [hd]; rfl) h']
    exact hq h' hs

theorem q2_procRows (h₀ : TopKey) (k : String) :
    ∀ (ctab : ConvTable) (rows : List Row) (st st' : TopDict × LegendDict),
      (lgKeysSub st ∧ legAt st.2 h₀ k) → procRows ctab h₀ st rows = .ok st' →
      lgKeysSub st' ∧ legAt st'.2 h₀ k := by
  intro ctab rows st st' hQ hok
  refine procRows_pres (fun st => lgKeysSub st ∧ legAt st.2 h₀ k)
    ?_ ?_ ctab h₀ rows st st' hQ hok
  · intro sp lg h inner k₁ hq hin hsk
    constructor
    · intro h' hs
      rw [dGet_dSet_isSome lg _ (by rw [hin]; rfl) h'] at hs
      exact hq.1 h' hs
    · obtain ⟨inner₀, hin₀, hk₀⟩ := hq.2
      by_cases hh : h = h₀
      · subst hh
        rw [hin] at hin₀
        cases hin₀
        refine ⟨dSet inner k₁ (cleantxt k₁), dGet_dSet_self _ _ _, ?_⟩
        by_cases hkk : k₁ = k
        · subst hkk
          exact dGet_dSet_self _ _ _
        · rw [dGet_dSet_ne _ _ hkk]
          exact hk₀
      · exact ⟨inner₀, by rw [dGet_dSet_ne _ _ hh]; exact hin₀, hk₀⟩
  · intro sp lg h d k₁ sv hq hd hsk
    refine ⟨?_, hq.2⟩
    intro h' hs
    rw [dGet_dSet_isSome sp _ (by rw [hd]; rfl) h']
    exact hq.1 h' hs

theorem procRow_ok_legend {ctab : ConvTable} {h : TopKey}
    {st st' : TopDict × LegendDict} {r : Row} {kt : String}
    (hkt : r.keyTxt = some kt)
    (hsk : skipIfKey.contains (pyStripS kt) = false)
    (hok : procRow ctab h st r = .ok st') :
    ∃ inner, dGet st.2 h = some inner ∧
      st'.2 = dSet st.2 h (dSet inner (pyStripS kt) (cleantxt (pyStripS kt))) := by
  obtain ⟨sp, lg⟩ := st
  have hnmem : ¬ pyStripS kt ∈ skipIfKey := by simpa using hsk
  cases hlg : lgSetIn lg h (pyStripS kt) (cleantxt (pyStripS kt)) with
  | error e => simp [procRow, hkt, hnmem, hlg] at hok
  | ok lg' =>
    obtain ⟨inner, hin, hshape⟩ := lgSetIn_ok_shape hlg
    refine ⟨inner, hin, ?_⟩
    cases hvt : r.valTxt with
    | none => simp [procRow, hkt, hnmem, hlg, hvt] at hok
    | some vt =>
      by_cases hsv : skipIfValue.contains (cleantxt (pyStripS vt)) = true
      · have hmemv : cleantxt (pyStripS vt) ∈ skipIfValue := by simpa using hsv
        have hpr : procRow ctab h (sp, lg) r = .ok (sp, lg') := by
          simp [procRow, hkt, hnmem, hlg, hvt, hmemv]
        rw [hpr] at hok
        cases hok
        exact hshape
      · have hnmemv : ¬ cleantxt (pyStripS vt) ∈ skipIfValue := by simpa using hsv
        cases hrv : rowValue ctab (pyStripS kt) (cleantxt (pyStripS vt)) with
        | error e => simp [procRow, hkt, hnmem, hlg, hvt, hnmemv, hrv] at hok
        | ok sv =>
          cases hts : topSetIn sp h (pyStripS kt) sv with
          | error e =>
            simp [procRow, hkt, hnmem, hlg, hvt, hnmemv, hrv, hts] at hok
          | ok sp' =>
            have hpr : procRow ctab h (sp, lg) r = .ok (sp', lg') := by
              simp [procRow, hkt, hnmem, hlg, hvt, hnmemv, hrv, hts]
            rw [hpr] at hok
            cases hok
            exact hshape

theorem lgKeysSub_procSec :
    ∀ (ctab : ConvTable) (st : TopDict × LegendDict) (s : Sec)
      (st' : TopDict × LegendDict),
      lgKeysSub st → procSec ctab st s = .ok st' → lgKeysSub st' := by
  refine procSec_pres lgKeysSub ?_ ?_ ?_
  · intro sp lg h inner k₁ hq hin hsk h' hs
    rw [dGet_dSet_isSome lg _ (by rw [hin]; rfl) h'] at hs
    exact hq h' hs
  · intro sp lg h d k₁ sv hq hd hsk h' hs
    rw [dGet_dSet_isSome sp _ (by rw [hd]; rfl) h']
    exact hq h' hs
  · intro sp lg h hq hf h' hs
    by_cases hh : h = h'
    · subst hh
      rw [dGet_dSet_self]
      rfl
    · rw [dGet_dSet_ne _ _ hh] at hs
      rw [dGet_dSet_ne _ _ hh]
      exact hq h' hs

theorem procRows_reach (h₀ : TopKey) (k : String) :
    ∀ (ctab : ConvTable) (rows : List Row) (st st' : TopDict × LegendDict),
      lgKeysSub st → procRows ctab h₀ st rows = .ok st' →
      ∀ r ∈ rows, ∀ kt, r.keyTxt = some kt → pyStripS kt = k →
      skipIfKey.contains k = false →
      lgKeysSub st' ∧ legAt st'.2 h₀ k := by
  intro ctab rows
  induction rows with
  | nil => intro st st' hinv hok r hr; simp at hr
  | cons r₁ rs ih =>
    intro st st' hinv hok r hr kt hkt hstrip hsk
    cases hpr : procRow ctab h₀ st r₁ with
    | error e => simp [procRows, hpr] at hok
    | ok st₁ =>
      have hok' : procRows ctab h₀ st₁ rs = .ok st' := by
        simpa [procRows, hpr] using hok
      have hinv₁ : lgKeysSub st₁ := lgKeysSub_procRow ctab h₀ st r₁ st₁ hinv hpr
      rcases List.mem_cons.mp hr with rfl | hr'
      · obtain ⟨inner, hin, hshape⟩ :=
          procRow_ok_legend hkt (by rw [hstrip]; exact hsk) hpr
        have hleg : legAt st₁.2 h₀ k := by
          rw [hshape, hstrip]
          exact ⟨dSet inner k (cleantxt k), dGet_dSet_self _ _ _, dGet_dSet_self _ _ _⟩
        exact q2_procRows h₀ k ctab rs st₁ st' ⟨hinv₁, hleg⟩ hok'
      · exact ih st₁ st' hinv₁ hok' r hr' kt hkt hstrip hsk

theorem procSecs_reach (k : String) :
    ∀ (ctab : ConvTable) (ss : List Sec) (st st' : TopDict × LegendDict),
      lgKeysSub st → procSecs ctab st ss = .ok st' →
      ∀ sec ∈ ss, sec.linkTxt ≠ some "Download Specifications" →
      ∀ r ∈ sec.rows, ∀ kt, r.keyTxt = some kt → pyStripS kt = k →
      skipIfKey.contains k = false →
      legAt st'.2 sec.headerTxt k := by
  intro ctab ss
  induction ss with
  | nil => intro st st' hinv hok sec hsec; simp at hsec
  | cons s ss' ih =>
    intro st st' hinv hok sec hsec hdl r hr kt hkt hstrip hsk
    cases hps : procSec ctab st s with
    | error e => simp [procSecs, hps] at hok
    | ok st₁ =>
      have hok' : procSecs ctab st₁ ss' = .ok st' := by
        simpa [procSecs, hps] using hok
      rcases List.mem_cons.mp hsec with rfl | hsec'
      · obtain ⟨sp, lg⟩ := st
        have hps' : procRows ctab sec.headerTxt
            (if (dGet sp sec.headerTxt).isSome = true then (sp, lg)
             else (dSet sp sec.headerTxt (.vd []), dSet lg sec.headerTxt []))
            sec.rows = .ok st₁ := by
          simpa [procSec, hdl] using hps
        have hinv₀ : lgKeysSub
            (if (dGet sp sec.headerTxt).isSome = true then (sp, lg)
             else (dSet sp sec.headerTxt (.vd []), dSet lg sec.headerTxt [])) := by
          by_cases hh : (dGet sp sec.headerTxt).isSome = true
          · rw [if_pos hh]; exact hinv
          · rw [if_neg hh]
            intro h' hs
            by_cases hhh : sec.headerTxt = h'
            · subst hhh
              rw [dGet_dSet_self]
              rfl
            · rw [dGet_dSet_ne _ _ hhh] at hs
              rw [dGet_dSet_ne _ _ hhh]
              exact hinv h' hs
        have h1 := procRows_reach sec.headerTxt k ctab sec.rows _ st₁ hinv₀ hps'
          r hr kt hkt hstrip hsk
        exact (q2_pres sec.headerTxt k ctab ss' st₁ st' h1 hok').2
      · have hinv₁ : lgKeysSub st₁ := lgKeysSub_procSec ctab st s st₁ hinv hps
        exact ih st₁ st' hinv₁ hok' sec hsec' hdl r hr kt hkt hstrip hsk

theorem procRow_NoK (h₀ : TopKey) (k : String) :
    ∀ (ctab : ConvTable) (h : TopKey) (st : TopDict × LegendDict) (r : Row)
      (st' : TopDict × LegendDict),
      procRow ctab h st r = .ok st' → topFreeAt h₀ k st.1 →
      (h = h₀ → ∀ kt, r.keyTxt = some kt → pyStripS kt = k →
        ∃ vt, r.valTxt = some vt ∧
          skipIfValue.contains (cleantxt (pyStripS vt)) = true) →
      topFreeAt h₀ k st'.1 := by
  intro ctab h st r st' hok hfree hrow
  obtain ⟨sp, lg⟩ := st
  cases hkt : r.keyTxt with
  | none => simp [procRow, hkt] at hok
  | some kt =>
    by_cases hskip : skipIfKey.contains (pyStripS kt) = true
    · have hmem : pyStripS kt ∈ skipIfKey := by simpa using hskip
      have hpr : procRow ctab h (sp, lg) r = .ok (sp, lg) := by
        simp [procRow, hkt, hmem]
      rw [hpr] at hok
      cases hok
      exact hfree
    · have hskf : skipIfKey.contains (pyStripS kt) = false := by
        cases hc : skipIfKey.contains (pyStripS kt)
        · rfl
        · exact absurd hc hskip
      have hnmem : ¬ pyStripS kt ∈ skipIfKey := by simpa using hskf
      cases hlg : lgSetIn lg h (pyStripS kt) (cleantxt (pyStripS kt)) with
      | error e => simp [procRow, hkt, hnmem, hlg] at hok
      | ok lg' =>
        cases hvt : r.valTxt with
        | none => simp [procRow, hkt, hnmem, hlg, hvt] at hok
        | some vt =>
          by_cases hsv : skipIfValue.contains (cleantxt (pyStripS vt)) = true
          · have hmemv : cleantxt (pyStripS vt) ∈ skipIfValue := by simpa using hsv
            have hpr : procRow ctab h (sp, lg) r = .ok (sp, lg') := by
              simp [procRow, hkt, hnmem, hlg, hvt, hmemv]
            rw [hpr] at hok
            cases hok
            exact hfree
          · have hnmemv : ¬ cleantxt (pyStripS vt) ∈ skipIfValue := by
              simpa using hsv
            cases hrv : rowValue ctab (pyStripS kt) (cleantxt (pyStripS vt)) with
            | error e => simp [procRow, hkt, hnmem, hlg, hvt, hnmemv, hrv] at hok
            | ok sv =>
              cases hts : topSetIn sp h (pyStripS kt) sv with
              | error e =>
                simp [procRow, hkt, hnmem, hlg, hvt, hnmemv, hrv, hts] at hok
              | ok sp' =>
                have hpr : procRow ctab h (sp, lg) r = .ok (sp', lg') := by
                  simp [procRow, hkt, hnmem, hlg, hvt, hnmemv, hrv, hts]
                rw [hpr] at hok
                cases hok
                obtain ⟨d, hd, hshape⟩ := topSetIn_ok_shape hts
                intro d' hd'
                by_cases hh : h = h₀
                · subst hh
                  have hkk : pyStripS kt ≠ k := by
                    intro he
                    obtain ⟨vt₂, hvt₂, hcont⟩ := hrow rfl kt hkt he
                    rw [hvt] at hvt₂
                    cases hvt₂
                    exact hsv hcont
                  rw [hshape, dGet_dSet_self] at hd'
                  cases hd'
                  rw [dGet_dSet_ne _ _ hkk]
                  exact hfree d hd
                · rw [hshape, dGet_dSet_ne _ _ hh] at hd'
                  exact hfree d' hd'

theorem procRows_NoK (h₀ : TopKey) (k : String) :
    ∀ (ctab : ConvTable) (h : TopKey) (rows : List Row)
      (st st' : TopDict × LegendDict),
      procRows ctab h st rows = .ok st' → topFreeAt h₀ k st.1 →
      (h = h₀ → ∀ r ∈ rows, ∀ kt, r.keyTxt = some kt → pyStripS kt = k →
        ∃ vt, r.valTxt = some vt ∧
          skipIfValue.contains (cleantxt (pyStripS vt)) = true) →
      topFreeAt h₀ k st'.1 := by
  intro ctab h rows
  induction rows with
  | nil =>
    intro st st' hok hfree hrow
    cases hok
    exact hfree
  | cons r rs ih =>
    intro st st' hok hfree hrow
    cases hpr : procRow ctab h st r with
    | error e => simp [procRows, hpr] at hok
    | ok st₁ =>
      have hok' : procRows ctab h st₁ rs = .ok st' := by
        simpa [procRows, hpr] using hok
      have hfree₁ := procRow_NoK h₀ k ctab h st r st₁ hpr hfree
        (fun hh kt hkt hs => hrow hh r (List.mem_cons_self r rs) kt hkt hs)
      exact ih st₁ st' hok' hfree₁
        (fun hh r' hr' => hrow hh r' (List.mem_cons_of_mem r hr'))

theorem procSec_NoK (h₀ : TopKey) (k : String) :
    ∀ (ctab : ConvTable) (st : TopDict × LegendDict) (s : Sec)
      (st' : TopDict × LegendDict),
      procSec ctab st s = .ok st' → topFreeAt h₀ k st.1 →
      (s.linkTxt ≠ some "Download Specifications" → s.headerTxt = h₀ →
        ∀ r ∈ s.rows, ∀ kt, r.keyTxt = some kt → pyStripS kt = k →
        ∃ vt, r.valTxt = some vt ∧
          skipIfValue.contains (cleantxt (pyStripS vt)) = true) →
      topFreeAt h₀ k st'.1 := by
  intro ctab st s st' hok hfree hcond
  obtain ⟨sp, lg⟩ := st
  by_cases hdl : s.linkTxt = some "Download Specifications"
  · have hpr : procSec ctab (sp, lg) s = .ok (sp, lg) := by
      simp [procSec, hdl]
    rw [hpr] at hok
    cases hok
    exact hfree
  · have hps' : procRows ctab s.headerTxt
        (if (dGet sp s.headerTxt).isSome = true then (sp, lg)
         else (dSet sp s.headerTxt (.vd []), dSet lg s.headerTxt []))
        s.rows = .ok st' := by
      simpa [procSec, hdl] using hok
    have hfree₀ : topFreeAt h₀ k
        (if (dGet sp s.headerTxt).isSome = true then (sp, lg)
         else (dSet sp s.headerTxt (.vd []), dSet lg s.headerTxt [])).1 := by
      by_cases hh : (dGet sp s.headerTxt).isSome = true
      · rw [if_pos hh]; exact hfree
      · rw [if_neg hh]
        intro d' hd'
        by_cases hhh : s.headerTxt = h₀
        · subst hhh
          rw [dGet_dSet_self] at hd'
          cases hd'
          rfl
        · rw [dGet_dSet_ne _ _ hhh] at hd'
          exact hfree d' hd'
    exact procRows_NoK h₀ k ctab s.headerTxt s.rows _ st' hps' hfree₀
      (fun hh => hcond hdl hh)

theorem procSecs_NoK (h₀ : TopKey) (k : String) :
    ∀ (ctab : ConvTable) (ss : List Sec) (st st' : TopDict × LegendDict),
      procSecs ctab st ss = .ok st' → topFreeAt h₀ k st.1 →
      (∀ s ∈ ss, s.linkTxt ≠ some "Download Specifications" → s.headerTxt = h₀ →
        ∀ r ∈ s.rows, ∀ kt, r.keyTxt = some kt → pyStripS kt = k →
        ∃ vt, r.valTxt = some vt ∧
          skipIfValue.contains (cleantxt (pyStripS vt)) = true) →
      topFreeAt h₀ k st'.1 := by
  intro ctab ss
  induction ss with
  | nil =>
    intro st st' hok hfree hcond
    cases hok
    exact hfree
  | cons s ss' ih =>
    intro st st' hok hfree hcond
    cases hps : procSec ctab st s with
    | error e => simp [procSecs, hps] at hok
    | ok st₁ =>
      have hok' : procSecs ctab st₁ ss' = .ok st' := by
        simpa [procSecs, hps] using hok
      have hfree₁ := procSec_NoK h₀ k ctab st s st₁ hps hfree
        (fun hdl hh => hcond s (List.mem_cons_self s ss') hdl hh)
      exact ih st₁ st' hok' hfree₁
        (fun s' hs' => hcond s' (List.mem_cons_of_mem s hs'))

theorem topFreeAt_emit (sp : TopDict) (lg : LegendDict) (h₀ : TopKey) (k : String)
    (hsp : topFreeAt h₀ k sp) :
    ∀ item ∈ (emitItems sp lg).1, recSectFree h₀ k item := by
  have hpred := emitItems_items_pred sp lg (topFreeAt h₀ k) hsp
    (by
      intro t h v _ hq d' hd'
      by_cases hh : h = h₀
      · subst hh
        rw [dGet_dSet_self] at hd'
        simp at hd'
      · rw [dGet_dSet_ne _ _ hh] at hd'
        exact hq d' hd')
    (by
      intro t h d k' _ hq hdh d' hd'
      by_cases hh : h = h₀
      · subst hh
        rw [dGet_dSet_self] at hd'
        cases hd'
        exact dGet_dDel_none d (hq d hdh)
      · rw [dGet_dSet_ne _ _ hh] at hd'
        exact hq d' hd')
  intro item hit
  rcases hpred item hit with rfl | ⟨d, hd, hP⟩
  · exact trivial
  · rcases hd with rfl | rfl
    · exact hP
    · exact hP

theorem emitItems_fst_head (sp : TopDict) (lg : LegendDict) :
    (emitItems sp lg).1.head? = some (Item.legend lg) := by
  rcases emitItems_shape sp lg with ⟨e, heq⟩ | ⟨sp1, _, heq⟩ |
    ⟨sp1, pd, socks, _, _, heq⟩ <;> rw [heq] <;> rfl

/-- C4: skip rules.  First half: a key on the skip-key list contributes
nothing — it appears in no legend group and in no section of any item
`parse_specs` emits.  Second half: a row whose key is not skipped but whose
cleaned value is on the skip-value list (and all rows of that header with
the same key are value-skipped) leaves the key in the emitted legend (it
was captured before the value check) while the header's section of every
emitted record stores no value for it. -/
theorem skip_rules_sound :
    (∀ (ctab : ConvTable) (page : Page) (k : String), k ∈ skipIfKey →
      ∀ item ∈ (parse_specs ctab page).1, itemFree k item) ∧
    (∀ (ctab : ConvTable) (page : Page) (n : Int) (nm : String) (sp : TopDict)
       (lg : LegendDict) (sec : Sec) (r : Row) (kt k : String),
      parse_prelude page = .ok (n, nm) →
      procSecs ctab (initSpecs page n nm, ([] : LegendDict)) page.sections =
        .ok (sp, lg) →
      sec ∈ page.sections → sec.linkTxt ≠ some "Download Specifications" →
      r ∈ sec.rows → r.keyTxt = some kt → pyStripS kt = k →
      skipIfKey.contains k = false →
      (∀ sec' ∈ page.sections, sec'.linkTxt ≠ some "Download Specifications" →
        sec'.headerTxt = sec.headerTxt →
        ∀ r' ∈ sec'.rows, ∀ kt', r'.keyTxt = some kt' → pyStripS kt' = k →
        ∃ vt, r'.valTxt = some vt ∧
          skipIfValue.contains (cleantxt (pyStripS vt)) = true) →
      (parse_specs ctab page).1.head? = some (Item.legend lg) ∧
      legAt lg sec.headerTxt k ∧
      ∀ item ∈ (parse_specs ctab page).1, recSectFree sec.headerTxt k item) := by
  constructor
  · intro ctab page k hk item hitem
    cases hp : parse_prelude page with
    | error e =>
      rw [show parse_specs ctab page = ([], some e) by simp [parse_specs, hp]]
        at hitem
      simp at hitem
    | ok p =>
      obtain ⟨n, nm⟩ := p
      cases hs : procSecs ctab (initSpecs page n nm, ([] : LegendDict))
          page.sections with
      | error e =>
        rw [show parse_specs ctab page = ([], some e) by simp [parse_specs, hp, hs]]
          at hitem
        simp at hitem
      | ok st =>
        obtain ⟨sp, lg⟩ := st
        have heq := parse_specs_eq_emit hp hs
        have hQ := skipKey_secs_inv k hk ctab page.sections
          (initSpecs page n nm, ([] : LegendDict)) (sp, lg)
          ⟨topFree_initSpecs page n nm k, by intro h inner hin; simp [dGet] at hin⟩ hs
        rw [heq] at hitem
        rcases topFree_emit sp lg k hQ.1 item hitem with rfl | ⟨d, hd, hfd⟩
        · exact hQ.2
        · rcases hd with rfl | rfl
          · exact hfd
          · exact hfd
  · intro ctab page n nm sp lg sec r kt k hp hs hsec hdl hr hkt hstrip hsk hvall
    have heq := parse_specs_eq_emit hp hs
    have hinv0 := lgKeysSub_initSpecs page n nm
    have hLeg := procSecs_reach k ctab page.sections
      (initSpecs page n nm, ([] : LegendDict)) (sp, lg) hinv0 hs
      sec hsec hdl r hr kt hkt hstrip hsk
    have hfree0 : topFreeAt sec.headerTxt k (initSpecs page n nm) :=
      fun d hd => topFree_initSpecs page n nm k sec.headerTxt d hd
    have hfree := procSecs_NoK sec.headerTxt k ctab page.sections
      (initSpecs page n nm, ([] : LegendDict)) (sp, lg) hs hfree0 hvall
    refine ⟨?_, hLeg, ?_⟩
    · rw [heq]
      exact emitItems_fst_head sp lg
    · intro item hitem
      rw [heq] at hitem
      exact topFreeAt_emit sp lg sec.headerTxt k hfree item hitem

/-- Witness for `skip_rules_sound`: on `exPageNoPkg` the skip-key
`Code Name` reaches no emitted item, and on `exPageVS` the value-skipped
`Highlights` row is in the legend but no section of any item stores it. -/
theorem skip_rules_sound_witness :
    itemFree "Code Name"
      (Item.legend [(some "Specs", [("Highlights", "Highlights"), ("ECC", "ECC")])]) ∧
    ((parse_specs [] exPageVS).1.head? =
      some (Item.legend [(some "Specs", [("Highlights", "Highlights")])]) ∧
     legAt [(some "Specs", [("Highlights", "Highlights")])] (some "Specs")
       "Highlights" ∧
     ∀ item ∈ (parse_specs [] exPageVS).1,
       recSectFree (some "Specs") "Highlights" item) := by
  constructor
  · exact skip_rules_sound.1 [] exPageNoPkg "Code Name" (by decide)
      (Item.legend [(some "Specs", [("Highlights", "Highlights"), ("ECC", "ECC")])])
      (by decide)
  · refine skip_rules_sound.2 [] exPageVS 7 "N"
      [(some "URL", .sc (.str "u")), (some "name", .sc (.str "N")),
       (some "arkid", .sc (.int 7)), (some "Specs", .vd [])]
      [(some "Specs", [("Highlights", "Highlights")])]
      { linkTxt := Option.none, headerTxt := some "Specs"
        rows := [{ keyTxt := some "Highlights", valTxt := some "View now" }] }
      { keyTxt := some "Highlights", valTxt := some "View now" }
      "Highlights" "Highlights"
      rfl rfl (by decide) (by decide) (by decide) rfl rfl (by decide) ?_
    intro sec' hsec' hdl hh r' hr' kt' hkt' hk'
    simp [exPageVS] at hsec'
    subst hsec'
    simp at hr'
    subst hr'
    exact ⟨"View now", rfl, by decide⟩
